import Mathlib

/-!
# fade_audio.c : volume ramp, playback loop and entry point

A shallow embedding of `src/fade_audio.c`.

* `long` variables are `Int` (the values a `long` can hold lie between
  `LONG_MIN` and `LONG_MAX`).  A `double` is the rational number it denotes:
  every conversion and every arithmetic operation of the two fader functions is
  rounded to the nearest binary64 value, ties to even (`toDouble`), one rounding
  per operation.  The assignment of a `double` to a `long` truncates toward zero
  and has no value when the result does not fit (`toLong`).
* Exponent limits of binary64 are not modelled: with operands that are `long`
  values, the constants 1.26, 10 and 20, every intermediate result is either 0
  or has a magnitude between 2^-57 and 2^65.
* Calls into libc, ALSA and ncurses are not part of the source: their results
  are inputs of the model (`Playback`, `MixerEnv`, `Env`, `Tick`), and the calls
  the program performs are recorded as events.
* The two asynchronous flags `stopAll` and `stopChild` are inputs as well: the
  model is told which value each read of the flag observes.
-/

namespace FadeAudio

/-! ## Constants -/

/-- Constant `FADE_DURATION_MS` (line 8). -/
def FADE_DURATION_MS : Nat := 2000

/-- Constant `BLOCK_SAMPLING` (line 9). -/
def BLOCK_SAMPLING : Nat := 512

/-- Constant `BLOCK_SIZE` (line 10). -/
def BLOCK_SIZE : Nat := 16

/-- Value of `EXIT_SUCCESS` in stdlib.h. -/
def EXIT_SUCCESS : Int := 0

/-- Value of `EXIT_FAILURE` in stdlib.h. -/
def EXIT_FAILURE : Int := 1

/-- Smallest value of a 64-bit `long`. -/
def LONG_MIN : Int := -(2 ^ 63)

/-- Largest value of a 64-bit `long`. -/
def LONG_MAX : Int := 2 ^ 63 - 1

/-! ## Binary64 arithmetic -/

/-- Nearest integer, a tie going to the even neighbour. -/
def roundEven (y : ℚ) : Int :=
  if y - ⌊y⌋ < 1 / 2 then ⌊y⌋
  else if 1 / 2 < y - ⌊y⌋ then ⌊y⌋ + 1
  else if ⌊y⌋ % 2 = 0 then ⌊y⌋ else ⌊y⌋ + 1

/-- Spacing of the binary64 values in the binade of `x`: with
`2^e ≤ |x| < 2^(e+1)` it is `2^(e-52)` (53 significant bits). -/
def ulp (x : ℚ) : ℚ := (2 : ℚ) ^ (Int.log 2 |x| - 52)

/-- The binary64 value nearest to `x`, ties to even: the result of a conversion
to `double` or of one arithmetic operation whose exact result is `x`. -/
def toDouble (x : ℚ) : ℚ := roundEven (x / ulp x) * ulp x

/-- Truncation toward zero. -/
def trunc (x : ℚ) : Int := if 0 ≤ x then ⌊x⌋ else ⌈x⌉

/-- Conversion of a `double` to a `long`: the fractional part is discarded; the
conversion has no defined result when the truncated value is not a `long`. -/
def toLong (x : ℚ) : Option Int :=
  if LONG_MIN ≤ trunc x ∧ trunc x ≤ LONG_MAX then some (trunc x) else none

/-! ## Volume ramp calculator -/

/-- The `double` that the expression `base_volume * 1.26` evaluates to. -/
def ceiling (base_volume : Int) : ℚ :=
  toDouble (toDouble base_volume * toDouble 1.26)

/-- Function `volume_fader_up` (lines 120-127): the value of `*previous_volume`
after the call, `none` when the conversion back to `long` is undefined.  When
the branch is taken the same value is pushed to the mixer element and printed. -/
def volume_fader_up (base_volume previous_volume : Int) : Option Int :=
  if toDouble previous_volume < ceiling base_volume then
    toLong (toDouble (toDouble previous_volume
      + toDouble (toDouble (ceiling base_volume - toDouble previous_volume) / 10)))
  else some previous_volume

/-- Function `volume_fader_down` (lines 135-143): the value of `*previous_volume`
after the call, `none` when the conversion back to `long` is undefined.  When
the branch is taken the same value is pushed to the mixer element and printed. -/
def volume_fader_down (base_volume previous_volume : Int) : Option Int :=
  if previous_volume > base_volume then
    toLong (toDouble (toDouble previous_volume
      - toDouble (toDouble (ceiling base_volume - toDouble previous_volume) / 20)))
  else some previous_volume

/-- The up-step in the arithmetic that claim C1 prescribes: exact arithmetic
followed by the truncation to an integer. -/
def volume_fader_up_exact (base_volume previous_volume : Int) : Int :=
  if (previous_volume : ℚ) < base_volume * 1.26 then
    trunc (previous_volume + ((base_volume * 1.26) - previous_volume) / 10)
  else previous_volume

/-- The down-step in the arithmetic that claim C1 prescribes: exact arithmetic
followed by the truncation to an integer. -/
def volume_fader_down_exact (base_volume previous_volume : Int) : Int :=
  if (previous_volume : ℚ) > base_volume then
    trunc (previous_volume - ((base_volume * 1.26) - previous_volume) / 20)
  else previous_volume

/-- Repeated up-steps started, as `child_main` starts, from `current = base`. -/
def ramp_up (base_volume : Int) : Nat → Option Int
  | 0 => some base_volume
  | n + 1 => (ramp_up base_volume n).bind (volume_fader_up base_volume)

/-- Repeated down-steps started from `current`. -/
def ramp_down (base_volume current : Int) : Nat → Option Int
  | 0 => some current
  | n + 1 => (ramp_down base_volume current n).bind (volume_fader_down base_volume)

/-! ## Control loop (`child_main`) -/

/-- What one iteration of the loop of `child_main` observes: the value of
`stopChild` read at line 163, the result of `getch()` (`-1` when no key is
pending) and the value of `stopChild` read at line 165. -/
structure Tick where
  stop163 : Bool
  key : Int
  stop165 : Bool
  deriving DecidableEq, Repr

/-- The character `'f'`. -/
def KEY_F : Int := 102

/-- A tick with no stop request in which `getch()` returns `key`. -/
def Tick.poll (key : Int) : Tick := ⟨false, key, false⟩

/-- Body of the loop of `child_main` (lines 163-167): the new `current_volume`. -/
def tick (base_volume current_volume : Int) (t : Tick) : Option Int :=
  if !t.stop163 && t.key != KEY_F then
    volume_fader_down base_volume current_volume
  else if !t.stop165 then
    volume_fader_up base_volume current_volume
  else some current_volume

/-- The loop of `child_main`: the value of `current_volume` after every tick. -/
def child_loop (base_volume : Int) : Int → List Tick → Option (List Int)
  | _, [] => some []
  | current_volume, t :: ts =>
    match tick base_volume current_volume t with
    | none => none
    | some next =>
      match child_loop base_volume next ts with
      | none => none
      | some rest => some (next :: rest)

/-- Result of a run of `child_main`. -/
structure ChildRun where
  status : Int
  volumes : List Int
  deriving DecidableEq, Repr

/-- Function `child_main` (lines 150-178).  `mixer_volume` is what
`snd_mixer_selem_get_playback_volume` stores into `base_volume`; `ticks` are the
iterations performed before the loop condition sees `stopChild`. -/
def child_main (mixer_volume : Int) (ticks : List Tick) : Option ChildRun :=
  let base_volume := mixer_volume
  let current_volume := base_volume
  match child_loop base_volume current_volume ticks with
  | none => none
  | some volumes => some { status := EXIT_SUCCESS, volumes := volumes }

/-! ## Playback engine (`parent_main`) -/

/-- Calls with an observable effect made by one iteration of the playback
loop. -/
inductive Event where
  | fread (items : Nat)
  | printf_eof
  | snd_pcm_writei (frames : Nat) (result : Int)
  | snd_pcm_recover (result : Int)
  | printf_err (frames : Int)
  deriving DecidableEq, Repr

/-- Inputs of `parent_main`: whether `fopen` finds the file, the length of the
file (`ftell` after the seek to `SEEK_END`), the value of `stopAll` seen by the
`i`-th evaluation of the loop condition, and the results of `snd_pcm_writei` and
`snd_pcm_recover` in the `i`-th iteration. -/
structure Playback where
  file_opens : Bool
  file_end : Nat
  stopAll : Nat → Bool
  writei : Nat → Int
  recover : Nat → Int

/-- Return value of `fread(buff, BLOCK_SIZE, BLOCK_SAMPLING, fp)` when `remaining`
bytes follow the cursor: the number of complete items read. -/
def fread_items (remaining : Nat) : Nat := min BLOCK_SAMPLING (remaining / BLOCK_SIZE)

/-- Number of bytes by which that `fread` advances the cursor. -/
def fread_bytes (remaining : Nat) : Nat := min (BLOCK_SAMPLING * BLOCK_SIZE) remaining

/-- Result of `parent_main`: the returned `err` and, for every iteration of the
loop, the calls it made. -/
structure ParentRun where
  err : Int
  iterations : List (List Event)
  deriving DecidableEq, Repr

/-- The `while` loop of `parent_main` (lines 201-215), entered for the `i`-th
time with the cursor at `pos` and the given value of `err`. -/
def parent_loop (p : Playback) (i pos : Nat) (err : Int) : ParentRun :=
  if h : p.stopAll i = false ∧ pos < p.file_end then
    let items := fread_items (p.file_end - pos)
    if items = 0 then
      { err := 0, iterations := [[Event.fread 0, Event.printf_eof]] }
    else
      let buff_size := BLOCK_SAMPLING * BLOCK_SIZE
      let frames := p.writei i
      if frames < 0 then
        let frames2 := p.recover i
        if frames2 < 0 then
          { err := items
            iterations := [[Event.fread items, Event.snd_pcm_writei (buff_size / 2) frames,
              Event.snd_pcm_recover frames2, Event.printf_err frames2]] }
        else
          let rest := parent_loop p (i + 1) (pos + fread_bytes (p.file_end - pos)) items
          { err := rest.err
            iterations := [Event.fread items, Event.snd_pcm_writei (buff_size / 2) frames,
              Event.snd_pcm_recover frames2] :: rest.iterations }
      else
        let rest := parent_loop p (i + 1) (pos + fread_bytes (p.file_end - pos)) items
        { err := rest.err
          iterations := [Event.fread items, Event.snd_pcm_writei (buff_size / 2) frames]
            :: rest.iterations }
  else
    { err := err, iterations := [] }
termination_by p.file_end - pos
decreasing_by
  all_goals
    simp only [fread_bytes, BLOCK_SAMPLING, BLOCK_SIZE]
    omega

/-- Function `parent_main` (lines 186-221).  The result of `fopen` is not tested:
when the file cannot be opened, `fseek` receives a null stream and the process
has no defined behaviour (`none`).  Otherwise `err` starts at 0 and the cursor
is placed at offset `buff_size` before the loop.  The 8192-byte `malloc` is
taken to succeed. -/
def parent_main (p : Playback) : Option ParentRun :=
  if p.file_opens then
    let err : Int := 0
    let buff_size := BLOCK_SAMPLING * BLOCK_SIZE
    some (parent_loop p 0 buff_size err)
  else none

/-- Number of `snd_pcm_writei` calls in a list of events. -/
def writes (evs : List Event) : Nat :=
  (evs.filter fun e => match e with
    | Event.snd_pcm_writei _ _ => true
    | _ => false).length

/-- Number of `snd_pcm_writei` calls of a whole run. -/
def total_writes (r : ParentRun) : Nat := (r.iterations.map writes).sum

/-- An iteration of the playback loop ended on an unrecoverable device error. -/
def deviceError (it : List Event) : Bool :=
  it.any fun e => match e with
    | Event.printf_err _ => true
    | _ => false

/-! ## Entry point (`main`) and its helpers -/

/-- Results of the ALSA mixer calls made by `init_volume_mixer`. -/
structure MixerEnv where
  snd_mixer_open : Int
  snd_mixer_attach : Int
  snd_mixer_selem_register : Int
  snd_mixer_load : Int
  master_found : Bool
  deriving DecidableEq, Repr

/-- Calls made by `init_volume_mixer`, with the result each one gave. -/
inductive MixerCall where
  | snd_mixer_open (result : Int)
  | snd_mixer_attach (result : Int)
  | snd_mixer_selem_register (result : Int)
  | snd_mixer_load (result : Int)
  | snd_mixer_find_selem (found : Bool)
  | snd_mixer_selem_set_playback_volume (channel : Int) (value : Int)
  deriving DecidableEq, Repr

/-- Function `init_sound` (lines 43-61). -/
def init_sound (snd_pcm_open snd_pcm_set_params : Int) : Int :=
  if snd_pcm_open < 0 then snd_pcm_open
  else if snd_pcm_set_params < 0 then snd_pcm_set_params
  else 0

/-- Function `stop_sound` (lines 68-77). -/
def stop_sound (snd_pcm_drain : Int) : Int :=
  if snd_pcm_drain < 0 then snd_pcm_drain else 0

/-- Function `init_volume_mixer` (lines 85-103): the returned value and the calls
made.  No result of a call is tested and the function ends with `return 0`. -/
def init_volume_mixer (m : MixerEnv) : Int × List MixerCall :=
  (0,
   [MixerCall.snd_mixer_open m.snd_mixer_open,
    MixerCall.snd_mixer_attach m.snd_mixer_attach,
    MixerCall.snd_mixer_selem_register m.snd_mixer_selem_register,
    MixerCall.snd_mixer_load m.snd_mixer_load,
    MixerCall.snd_mixer_find_selem m.master_found,
    MixerCall.snd_mixer_selem_set_playback_volume 1 (Int.tdiv 32655 2)])

/-- Function `stop_volume_mixer` (lines 110-112). -/
def stop_volume_mixer (snd_mixer_close : Int) : Int := snd_mixer_close

/-- Everything `main` receives from outside: results of the library calls, of
`fork`, and the inputs of the two loops; `playback name` is what `parent_main`
meets when it is given the file name `name`. -/
structure Env where
  snd_pcm_open : Int
  snd_pcm_set_params : Int
  mixer : MixerEnv
  fork : Int
  playback : String → Playback
  mixer_volume : Int
  ticks : List Tick
  snd_pcm_drain : Int
  snd_mixer_close : Int

/-- Steps of `main`, in program order. -/
inductive Step where
  | usage_message
  | init_sound (err : Int)
  | init_sound_message
  | init_volume_mixer (calls : List MixerCall) (err : Int)
  | init_volume_mixer_message
  | fork (pid : Int)
  | child_main (run : Option ChildRun)
  | parent_main (file_name : String) (run : Option ParentRun)
  | kill_SIGCHLD
  | stop_sound (err : Int)
  | stop_sound_message
  | stop_volume_mixer (err : Int)
  | stop_volume_mixer_message
  | fork_message
  deriving DecidableEq, Repr

/-- Result of `main`: the exit code (argument of `exit` or returned value; `none`
when the process ends without reaching either) and the steps performed. -/
structure Outcome where
  code : Option Int
  steps : List Step
  deriving DecidableEq, Repr

/-- Function `main` (lines 230-277); `argc` is the length of `argv`. -/
def main (argv : List String) (env : Env) : Outcome :=
  let argc : Int := argv.length
  if argc < 2 then
    { code := some EXIT_FAILURE, steps := [Step.usage_message] }
  else
    let err := init_sound env.snd_pcm_open env.snd_pcm_set_params
    if err < 0 then
      { code := some EXIT_FAILURE, steps := [Step.init_sound err, Step.init_sound_message] }
    else
      let s1 := [Step.init_sound err]
      let mix := init_volume_mixer env.mixer
      let err := mix.1
      if err < 0 then
        { code := some EXIT_FAILURE
          steps := s1 ++ [Step.init_volume_mixer mix.2 err, Step.init_volume_mixer_message] }
      else
        let s2 := s1 ++ [Step.init_volume_mixer mix.2 err]
        let pid := env.fork
        if pid = 0 then
          match child_main env.mixer_volume env.ticks with
          | none => { code := none, steps := s2 ++ [Step.fork pid, Step.child_main none] }
          | some run =>
            { code := some err, steps := s2 ++ [Step.fork pid, Step.child_main (some run)] }
        else if pid ≥ 0 then
          let file_name := argv.getD 1 ""
          match parent_main (env.playback file_name) with
          | none =>
            { code := none, steps := s2 ++ [Step.fork pid, Step.parent_main file_name none] }
          | some run =>
            let err := stop_sound env.snd_pcm_drain
            let s3 := s2 ++ [Step.fork pid, Step.parent_main file_name (some run),
              Step.kill_SIGCHLD, Step.stop_sound err]
              ++ (if err < 0 then [Step.stop_sound_message] else [])
            let err := stop_volume_mixer env.snd_mixer_close
            { code := some err
              steps := s3 ++ [Step.stop_volume_mixer err]
                ++ (if err < 0 then [Step.stop_volume_mixer_message] else []) }
        else
          { code := some err, steps := s2 ++ [Step.fork pid, Step.fork_message] }

/-! ## Concrete inputs -/

/-- An existing file of `n` bytes played with no stop request on a sink that
accepts every write (each `snd_pcm_writei` reports the 4096 frames written). -/
def playback_of_length (n : Nat) : Playback :=
  { file_opens := true, file_end := n, stopAll := fun _ => false,
    writei := fun _ => 4096, recover := fun _ => 0 }

/-- An existing file of two blocks played on a sink whose first write fails with
`-EPIPE` and whose recovery fails as well. -/
def playback_device_error : Playback :=
  { file_opens := true, file_end := 16384, stopAll := fun _ => false,
    writei := fun _ => -32, recover := fun _ => -32 }

/-- A mixer on which every call succeeds and `Master` exists. -/
def mixer_ok : MixerEnv :=
  { snd_mixer_open := 0, snd_mixer_attach := 0, snd_mixer_selem_register := 0,
    snd_mixer_load := 0, master_found := true }

/-- A mixer on which `snd_mixer_load` fails with `-ENOMEM` after the element
`Master` has been created. -/
def mixer_load_fails : MixerEnv :=
  { snd_mixer_open := 0, snd_mixer_attach := 0, snd_mixer_selem_register := 0,
    snd_mixer_load := -12, master_found := true }

/-- A parent-side run in which every library call other than those of `playback`
and `mixer` succeeds; `fork` returns the child's pid 4242 and every file name
leads to `playback`. -/
def env_of (mixer : MixerEnv) (playback : Playback) : Env :=
  { snd_pcm_open := 0, snd_pcm_set_params := 0, mixer := mixer, fork := 4242,
    playback := fun _ => playback, mixer_volume := 16327, ticks := [],
    snd_pcm_drain := 0, snd_mixer_close := 0 }

/-! ## Rounding to binary64 -/

theorem roundEven_mem (y : ℚ) : roundEven y = ⌊y⌋ ∨ roundEven y = ⌊y⌋ + 1 := by
  unfold roundEven
  split_ifs <;> simp

theorem roundEven_intCast (n : Int) : roundEven (n : ℚ) = n := by
  unfold roundEven
  simp

theorem roundEven_mono {y z : ℚ} (h : y ≤ z) : roundEven y ≤ roundEven z := by
  have hf : ⌊y⌋ ≤ ⌊z⌋ := Int.floor_mono h
  rcases lt_or_eq_of_le hf with hlt | heq
  · have h1 : roundEven y ≤ ⌊y⌋ + 1 := by
      rcases roundEven_mem y with h | h <;> omega
    have h2 : ⌊z⌋ ≤ roundEven z := by
      rcases roundEven_mem z with h | h <;> omega
    omega
  · have hd : y - ⌊y⌋ ≤ z - ⌊z⌋ := by rw [heq]; linarith
    unfold roundEven
    rw [heq]
    split_ifs <;> first | omega | (exfalso; linarith)

theorem roundEven_eq_of_near (y : ℚ) (m : Int) (h : |y - m| < 1 / 2) : roundEven y = m := by
  rw [abs_lt] at h
  by_cases hym : (m : ℚ) ≤ y
  · have hf : ⌊y⌋ = m := Int.floor_eq_iff.mpr ⟨hym, by linarith⟩
    unfold roundEven
    rw [hf, if_pos (by linarith)]
  · have hf : ⌊y⌋ = m - 1 := Int.floor_eq_iff.mpr ⟨by push_cast; linarith, by push_cast; linarith⟩
    unfold roundEven
    rw [hf, if_neg (by push_cast; linarith), if_pos (by push_cast; linarith)]
    omega

theorem roundEven_tie_even (y : ℚ) (m : Int) (hy : y = m + 1 / 2) (hm : m % 2 = 0) :
    roundEven y = m := by
  have hf : ⌊y⌋ = m := Int.floor_eq_iff.mpr ⟨by linarith, by linarith⟩
  unfold roundEven
  rw [hf, if_neg (by linarith), if_neg (by linarith), if_pos hm]

theorem roundEven_neg (y : ℚ) : roundEven (-y) = -roundEven y := by
  by_cases hy : (⌊y⌋ : ℚ) = y
  · rw [← hy, ← Int.cast_neg, roundEven_intCast, roundEven_intCast]
  · have h1 : (⌊y⌋ : ℚ) < y := lt_of_le_of_ne (Int.floor_le y) hy
    have h2 : y < ⌊y⌋ + 1 := Int.lt_floor_add_one y
    have hf : ⌊-y⌋ = -⌊y⌋ - 1 :=
      Int.floor_eq_iff.mpr ⟨by push_cast; linarith, by push_cast; linarith⟩
    unfold roundEven
    rw [hf]
    push_cast
    split_ifs <;> first | omega | (exfalso; linarith)

theorem ulp_pos (x : ℚ) : 0 < ulp x := by
  unfold ulp
  positivity

theorem ulp_neg (x : ℚ) : ulp (-x) = ulp x := by
  unfold ulp
  rw [abs_neg]

theorem toDouble_neg (x : ℚ) : toDouble (-x) = -toDouble x := by
  unfold toDouble
  rw [ulp_neg, neg_div, roundEven_neg]
  push_cast
  ring

theorem toDouble_zero : toDouble 0 = 0 := by
  unfold toDouble
  rw [zero_div]
  have h : roundEven 0 = 0 := by exact_mod_cast roundEven_intCast 0
  rw [h]
  simp

theorem log_eq_of_bounds (x : ℚ) (e : Int) (hlo : (2 : ℚ) ^ e ≤ x)
    (hhi : x < (2 : ℚ) ^ (e + 1)) : Int.log 2 x = e := by
  have hx : 0 < x := lt_of_lt_of_le (by positivity) hlo
  have h1 : e ≤ Int.log 2 x :=
    (Int.zpow_le_iff_le_log (by norm_num) hx).mp (by exact_mod_cast hlo)
  have h2 : Int.log 2 x < e + 1 :=
    (Int.lt_zpow_iff_log_lt (by norm_num) hx).mp (by exact_mod_cast hhi)
  omega

theorem log_bounds (x : ℚ) (hx : 0 < x) :
    (2 : ℚ) ^ Int.log 2 x ≤ x ∧ x < (2 : ℚ) ^ (Int.log 2 x + 1) := by
  constructor
  · exact_mod_cast Int.zpow_log_le_self (by norm_num : 1 < 2) hx
  · exact_mod_cast Int.lt_zpow_succ_log_self (by norm_num : 1 < 2) x

/-- Evaluation of one rounding: the binade `e` and the 53-bit integer `m` are
given, and `x / 2^(e-52)` is closer to `m` than to any other integer. -/
theorem toDouble_eq_of_near (x : ℚ) (e m : Int) (hlo : (2 : ℚ) ^ e ≤ x)
    (hhi : x < (2 : ℚ) ^ (e + 1)) (h1 : (m : ℚ) - 1 / 2 < x / (2 : ℚ) ^ (e - 52))
    (h2 : x / (2 : ℚ) ^ (e - 52) < m + 1 / 2) :
    toDouble x = m * (2 : ℚ) ^ (e - 52) := by
  have hx : 0 < x := lt_of_lt_of_le (by positivity) hlo
  unfold toDouble ulp
  rw [abs_of_pos hx, log_eq_of_bounds x e hlo hhi,
    roundEven_eq_of_near _ m (abs_lt.mpr ⟨by linarith, by linarith⟩)]

/-- Evaluation of one rounding on a tie. -/
theorem toDouble_eq_of_tie (x : ℚ) (e m : Int) (hlo : (2 : ℚ) ^ e ≤ x)
    (hhi : x < (2 : ℚ) ^ (e + 1)) (h1 : x / (2 : ℚ) ^ (e - 52) = m + 1 / 2)
    (hm : m % 2 = 0) :
    toDouble x = m * (2 : ℚ) ^ (e - 52) := by
  have hx : 0 < x := lt_of_lt_of_le (by positivity) hlo
  unfold toDouble ulp
  rw [abs_of_pos hx, log_eq_of_bounds x e hlo hhi, roundEven_tie_even _ m h1 hm]

/-- A positive number and its rounding lie in the same closed binade. -/
theorem toDouble_binade (x : ℚ) (hx : 0 < x) :
    (2 : ℚ) ^ Int.log 2 x ≤ toDouble x ∧ toDouble x ≤ (2 : ℚ) ^ (Int.log 2 x + 1) := by
  obtain ⟨hlo, hhi⟩ := log_bounds x hx
  have hq : (0 : ℚ) < (2 : ℚ) ^ (Int.log 2 x - 52) := by positivity
  have e1 : (2 : ℚ) ^ Int.log 2 x = ((2 ^ 52 : Int) : ℚ) * (2 : ℚ) ^ (Int.log 2 x - 52) := by
    rw [zpow_sub₀ (by norm_num : (2 : ℚ) ≠ 0)]
    push_cast
    field_simp
    ring
  have e2 : (2 : ℚ) ^ (Int.log 2 x + 1)
      = ((2 ^ 53 : Int) : ℚ) * (2 : ℚ) ^ (Int.log 2 x - 52) := by
    rw [zpow_sub₀ (by norm_num : (2 : ℚ) ≠ 0), zpow_add₀ (by norm_num : (2 : ℚ) ≠ 0)]
    push_cast
    field_simp
    ring
  have y1 : ((2 ^ 52 : Int) : ℚ) ≤ x / (2 : ℚ) ^ (Int.log 2 x - 52) := by
    rw [le_div_iff₀ hq, ← e1]
    exact hlo
  have y2 : x / (2 : ℚ) ^ (Int.log 2 x - 52) ≤ ((2 ^ 53 : Int) : ℚ) := by
    rw [div_le_iff₀ hq, ← e2]
    exact hhi.le
  have r1 := roundEven_mono y1
  have r2 := roundEven_mono y2
  rw [roundEven_intCast] at r1 r2
  unfold toDouble ulp
  rw [abs_of_pos hx, e1, e2]
  constructor
  · exact mul_le_mul_of_nonneg_right (by exact_mod_cast r1) hq.le
  · exact mul_le_mul_of_nonneg_right (by exact_mod_cast r2) hq.le

theorem toDouble_pos (x : ℚ) (hx : 0 < x) : 0 < toDouble x :=
  lt_of_lt_of_le (by positivity) (toDouble_binade x hx).1

theorem toDouble_nonneg (x : ℚ) (hx : 0 ≤ x) : 0 ≤ toDouble x := by
  rcases lt_or_eq_of_le hx with h | h
  · exact (toDouble_pos x h).le
  · rw [← h, toDouble_zero]

/-- A rounding at most doubles a positive number. -/
theorem toDouble_le_two_mul (x : ℚ) (hx : 0 ≤ x) : toDouble x ≤ 2 * x := by
  rcases lt_or_eq_of_le hx with h | h
  · have h1 := (toDouble_binade x h).2
    have h2 := (log_bounds x h).1
    have h3 : (2 : ℚ) ^ (Int.log 2 x + 1) = 2 * (2 : ℚ) ^ Int.log 2 x := by
      rw [zpow_add₀ (by norm_num : (2 : ℚ) ≠ 0)]
      ring
    linarith
  · rw [← h, toDouble_zero]
    norm_num

theorem toDouble_mono_pos {x y : ℚ} (hx : 0 < x) (h : x ≤ y) : toDouble x ≤ toDouble y := by
  have hy : 0 < y := lt_of_lt_of_le hx h
  have hl : Int.log 2 x ≤ Int.log 2 y := Int.log_mono_right hx h
  rcases lt_or_eq_of_le hl with hlt | heq
  · have h1 := (toDouble_binade x hx).2
    have h2 := (toDouble_binade y hy).1
    have h3 : (2 : ℚ) ^ (Int.log 2 x + 1) ≤ (2 : ℚ) ^ Int.log 2 y :=
      zpow_le_zpow_right₀ (by norm_num) (by omega)
    linarith
  · unfold toDouble ulp
    rw [abs_of_pos hx, abs_of_pos hy, heq]
    have hq : (0 : ℚ) < (2 : ℚ) ^ (Int.log 2 y - 52) := by positivity
    have hr : roundEven (x / (2 : ℚ) ^ (Int.log 2 y - 52))
        ≤ roundEven (y / (2 : ℚ) ^ (Int.log 2 y - 52)) :=
      roundEven_mono (div_le_div_of_nonneg_right h hq.le)
    exact mul_le_mul_of_nonneg_right (by exact_mod_cast hr) hq.le

/-- Rounding is monotone. -/
theorem toDouble_mono {x y : ℚ} (h : x ≤ y) : toDouble x ≤ toDouble y := by
  rcases lt_trichotomy 0 x with hx | hx | hx
  · exact toDouble_mono_pos hx h
  · rw [← hx, toDouble_zero]
    exact toDouble_nonneg y (by linarith)
  · rcases le_or_lt 0 y with hy | hy
    · have h1 := toDouble_pos (-x) (by linarith)
      rw [toDouble_neg] at h1
      have h2 := toDouble_nonneg y hy
      linarith
    · have h1 := toDouble_mono_pos (neg_pos.mpr hy) (neg_le_neg h)
      rw [toDouble_neg, toDouble_neg] at h1
      linarith

theorem toDouble_of_int_quotient (x : ℚ) (j : Int) (h : x / ulp x = j) : toDouble x = x := by
  unfold toDouble
  rw [h, roundEven_intCast, ← h]
  exact div_mul_cancel₀ x (ulp_pos x).ne'

/-- A number `m * 2^k` with at most 53 significant bits is a binary64 value. -/
theorem toDouble_of_repr_pos (m k : Int) (hm0 : 0 < m) (hm : m ≤ 2 ^ 53) :
    toDouble ((m : ℚ) * (2 : ℚ) ^ k) = (m : ℚ) * (2 : ℚ) ^ k := by
  have h2 : (2 : ℚ) ≠ 0 := by norm_num
  have hk : (0 : ℚ) < (2 : ℚ) ^ k := by positivity
  have hx : (0 : ℚ) < (m : ℚ) * (2 : ℚ) ^ k := mul_pos (by exact_mod_cast hm0) hk
  obtain ⟨hlo, hhi⟩ := log_bounds _ hx
  have hmq : (m : ℚ) ≤ (2 : ℚ) ^ (53 : Int) := by
    have : ((m : Int) : ℚ) ≤ ((2 ^ 53 : Int) : ℚ) := by exact_mod_cast hm
    rw [show ((2 : ℚ) ^ (53 : Int)) = ((2 ^ 53 : Int) : ℚ) by norm_num]
    exact this
  have hub : (m : ℚ) * (2 : ℚ) ^ k ≤ (2 : ℚ) ^ (53 + k) := by
    rw [zpow_add₀ h2]
    exact mul_le_mul_of_nonneg_right hmq hk.le
  have hu : ulp ((m : ℚ) * (2 : ℚ) ^ k)
      = (2 : ℚ) ^ (Int.log 2 ((m : ℚ) * (2 : ℚ) ^ k) - 52) := by
    unfold ulp
    rw [abs_of_pos hx]
  by_cases hc : Int.log 2 ((m : ℚ) * (2 : ℚ) ^ k) - 52 ≤ k
  · obtain ⟨n, hn⟩ := Int.eq_ofNat_of_zero_le (sub_nonneg.mpr hc)
    apply toDouble_of_int_quotient _ (m * 2 ^ n)
    rw [hu]
    have hsplit : (2 : ℚ) ^ k
        = (2 : ℚ) ^ (Int.log 2 ((m : ℚ) * (2 : ℚ) ^ k) - 52) * (2 : ℚ) ^ (n : Int) := by
      rw [← zpow_add₀ h2, ← hn]
      congr 1
      ring
    have hq : (0 : ℚ) < (2 : ℚ) ^ (Int.log 2 ((m : ℚ) * (2 : ℚ) ^ k) - 52) := by positivity
    rw [div_eq_iff hq.ne']
    nth_rewrite 1 [hsplit]
    push_cast
    rw [zpow_natCast]
    ring
  · have hL : Int.log 2 ((m : ℚ) * (2 : ℚ) ^ k) = 53 + k := by
      have h1 : (2 : ℚ) ^ Int.log 2 ((m : ℚ) * (2 : ℚ) ^ k) ≤ (2 : ℚ) ^ (53 + k) :=
        le_trans hlo hub
      have h3 : Int.log 2 ((m : ℚ) * (2 : ℚ) ^ k) ≤ 53 + k :=
        (zpow_le_zpow_iff_right₀ (by norm_num : (1 : ℚ) < 2)).mp h1
      omega
    have hxe : (m : ℚ) * (2 : ℚ) ^ k = (2 : ℚ) ^ (53 + k) := by
      apply le_antisymm hub
      rw [← hL]
      exact hlo
    apply toDouble_of_int_quotient _ (2 ^ 52)
    rw [hu, hL, hxe, ← zpow_sub₀ h2]
    have : (53 + k - (53 + k - 52) : Int) = 52 := by ring
    rw [this]
    norm_num

theorem toDouble_of_repr (m k : Int) (hm : |m| ≤ 2 ^ 53) :
    toDouble ((m : ℚ) * (2 : ℚ) ^ k) = (m : ℚ) * (2 : ℚ) ^ k := by
  rw [abs_le] at hm
  rcases lt_trichotomy 0 m with h | h | h
  · exact toDouble_of_repr_pos m k h hm.2
  · rw [← h]
    simp [toDouble_zero]
  · have h1 := toDouble_of_repr_pos (-m) k (by omega) (by omega)
    have h2 : ((-m : Int) : ℚ) * (2 : ℚ) ^ k = -((m : ℚ) * (2 : ℚ) ^ k) := by
      push_cast
      ring
    rw [h2, toDouble_neg] at h1
    linarith

/-- Integers of magnitude at most 2^53 are binary64 values. -/
theorem toDouble_intCast (n : Int) (hn : |n| ≤ 2 ^ 53) : toDouble (n : ℚ) = n := by
  have h := toDouble_of_repr n 0 hn
  simpa using h

/-- Rounding a binary64 value leaves it unchanged. -/
theorem toDouble_idem (x : ℚ) : toDouble (toDouble x) = toDouble x := by
  rcases lt_trichotomy 0 x with hx | hx | hx
  · have hq : (0 : ℚ) < (2 : ℚ) ^ (Int.log 2 x - 52) := by positivity
    have hb := (toDouble_binade x hx).2
    have hp := toDouble_pos x hx
    have hform : toDouble x
        = (roundEven (x / (2 : ℚ) ^ (Int.log 2 x - 52)) : ℚ) * (2 : ℚ) ^ (Int.log 2 x - 52) := by
      unfold toDouble ulp
      rw [abs_of_pos hx]
    have e2 : (2 : ℚ) ^ (Int.log 2 x + 1)
        = ((2 ^ 53 : Int) : ℚ) * (2 : ℚ) ^ (Int.log 2 x - 52) := by
      rw [zpow_sub₀ (by norm_num : (2 : ℚ) ≠ 0), zpow_add₀ (by norm_num : (2 : ℚ) ≠ 0)]
      push_cast
      field_simp
      ring
    rw [hform] at hb hp ⊢
    rw [e2] at hb
    have hM1 : (roundEven (x / (2 : ℚ) ^ (Int.log 2 x - 52)) : ℚ) ≤ ((2 ^ 53 : Int) : ℚ) :=
      le_of_mul_le_mul_right hb hq
    have hM0 : (0 : ℚ) < (roundEven (x / (2 : ℚ) ^ (Int.log 2 x - 52)) : ℚ) :=
      pos_of_mul_pos_left hp hq.le
    apply toDouble_of_repr
    rw [abs_le]
    constructor
    · have : (0 : Int) < roundEven (x / (2 : ℚ) ^ (Int.log 2 x - 52)) := by exact_mod_cast hM0
      omega
    · exact_mod_cast hM1
  · rw [← hx, toDouble_zero, toDouble_zero]
  · have hx2 : 0 < -x := by linarith
    have hq : (0 : ℚ) < (2 : ℚ) ^ (Int.log 2 (-x) - 52) := by positivity
    have hb := (toDouble_binade (-x) hx2).2
    have hp := toDouble_pos (-x) hx2
    have hform : toDouble (-x)
        = (roundEven (-x / (2 : ℚ) ^ (Int.log 2 (-x) - 52)) : ℚ)
          * (2 : ℚ) ^ (Int.log 2 (-x) - 52) := by
      unfold toDouble ulp
      rw [abs_of_pos hx2]
    have e2 : (2 : ℚ) ^ (Int.log 2 (-x) + 1)
        = ((2 ^ 53 : Int) : ℚ) * (2 : ℚ) ^ (Int.log 2 (-x) - 52) := by
      rw [zpow_sub₀ (by norm_num : (2 : ℚ) ≠ 0), zpow_add₀ (by norm_num : (2 : ℚ) ≠ 0)]
      push_cast
      field_simp
      ring
    have hneg : toDouble x = -toDouble (-x) := by rw [toDouble_neg, neg_neg]
    rw [hneg, toDouble_neg, neg_inj]
    rw [hform] at hb hp ⊢
    rw [e2] at hb
    have hM1 : (roundEven (-x / (2 : ℚ) ^ (Int.log 2 (-x) - 52)) : ℚ) ≤ ((2 ^ 53 : Int) : ℚ) :=
      le_of_mul_le_mul_right hb hq
    have hM0 : (0 : ℚ) < (roundEven (-x / (2 : ℚ) ^ (Int.log 2 (-x) - 52)) : ℚ) :=
      pos_of_mul_pos_left hp hq.le
    apply toDouble_of_repr
    rw [abs_le]
    constructor
    · have : (0 : Int) < roundEven (-x / (2 : ℚ) ^ (Int.log 2 (-x) - 52)) := by
        exact_mod_cast hM0
      omega
    · exact_mod_cast hM1

/-! ## Truncation and the constant 1.26 -/

theorem le_trunc (c : Int) (v : ℚ) (h : (c : ℚ) ≤ v) : c ≤ trunc v := by
  unfold trunc
  split
  · exact Int.le_floor.mpr h
  · have h1 : (c : ℚ) ≤ (⌈v⌉ : ℚ) := le_trans h (Int.le_ceil v)
    exact_mod_cast h1

theorem trunc_le (v C : ℚ) (hC : 0 ≤ C) (h : v ≤ C) : (trunc v : ℚ) ≤ C := by
  unfold trunc
  split
  · exact le_trans (Int.floor_le v) h
  · rename_i hv
    have h1 : ⌈v⌉ ≤ 0 := Int.ceil_le.mpr (by push_cast; linarith)
    have h2 : (⌈v⌉ : ℚ) ≤ 0 := by exact_mod_cast h1
    linarith

theorem trunc_of_bounds (v : ℚ) (r : Int) (h0 : 0 ≤ v) (h1 : (r : ℚ) ≤ v) (h2 : v < r + 1) :
    trunc v = r := by
  unfold trunc
  rw [if_pos h0]
  exact Int.floor_eq_iff.mpr ⟨h1, h2⟩

theorem toLong_of_bounds (v : ℚ) (r : Int) (h0 : 0 ≤ v) (h1 : (r : ℚ) ≤ v) (h2 : v < r + 1)
    (h3 : LONG_MIN ≤ r) (h4 : r ≤ LONG_MAX) : toLong v = some r := by
  unfold toLong
  rw [trunc_of_bounds v r h0 h1 h2, if_pos ⟨h3, h4⟩]

/-- The `double` constant `1.26`. -/
theorem toDouble_126 : toDouble 1.26 = 5674535530486825 / 4503599627370496 := by
  refine (toDouble_eq_of_near _ 0 5674535530486825 ?_ ?_ ?_ ?_).trans ?_ <;> norm_num

theorem toDouble_two_pow (n : Nat) : toDouble ((2 : ℚ) ^ n) = (2 : ℚ) ^ n := by
  have h := toDouble_of_repr 1 n (by norm_num)
  simpa using h

/-! ## The up-step in binary64 arithmetic -/

theorem ceiling_pos (b : Int) (hb : 0 < b) : 0 < ceiling b := by
  unfold ceiling
  apply toDouble_pos
  have h1 : 0 < toDouble (b : ℚ) := toDouble_pos _ (by exact_mod_cast hb)
  rw [toDouble_126]
  positivity

theorem ceiling_idem (b : Int) : toDouble (ceiling b) = ceiling b := by
  unfold ceiling
  exact toDouble_idem _

theorem base_le_ceiling (b : Int) (hb : 0 < b) (hb2 : b ≤ 2 ^ 53) : (b : ℚ) ≤ ceiling b := by
  have hbq : (0 : ℚ) < b := by exact_mod_cast hb
  have hr : toDouble (b : ℚ) = b := toDouble_intCast b (by rw [abs_le]; constructor <;> omega)
  unfold ceiling
  rw [hr, toDouble_126]
  have h1 : (b : ℚ) ≤ (b : ℚ) * (5674535530486825 / 4503599627370496) := by
    have : (1 : ℚ) ≤ 5674535530486825 / 4503599627370496 := by norm_num
    nlinarith
  have h2 := toDouble_mono h1
  rw [hr] at h2
  exact h2

theorem ceiling_le_of_le (b : Int) (n : Nat) (hb : 0 < b) (hb2 : b ≤ 2 ^ 53)
    (hbn : (b : ℚ) * 2 ≤ (2 : ℚ) ^ n) : ceiling b ≤ (2 : ℚ) ^ n := by
  have hbq : (0 : ℚ) < b := by exact_mod_cast hb
  have hr : toDouble (b : ℚ) = b := toDouble_intCast b (by rw [abs_le]; constructor <;> omega)
  unfold ceiling
  rw [hr, toDouble_126]
  have h1 : (b : ℚ) * (5674535530486825 / 4503599627370496) ≤ (2 : ℚ) ^ n := by
    have : (5674535530486825 / 4503599627370496 : ℚ) ≤ 2 := by norm_num
    nlinarith
  have h2 := toDouble_mono h1
  rw [toDouble_two_pow] at h2
  exact h2

/-- The value the up-step adds up before the truncation lies between `current`
and the ceiling. -/
theorem up_sum_bounds (b c : Int) (hcr : toDouble (c : ℚ) = c) (hlt : (c : ℚ) < ceiling b) :
    (c : ℚ) ≤ toDouble ((c : ℚ) + toDouble (toDouble (ceiling b - c) / 10))
    ∧ toDouble ((c : ℚ) + toDouble (toDouble (ceiling b - c) / 10)) ≤ ceiling b := by
  have hG : 0 ≤ ceiling b - c := by linarith
  have hg0 := toDouble_nonneg _ hG
  have hg2 := toDouble_le_two_mul _ hG
  have hs0 := toDouble_nonneg (toDouble (ceiling b - c) / 10) (by positivity)
  have hs2 := toDouble_le_two_mul (toDouble (ceiling b - c) / 10) (by positivity)
  constructor
  · have h := toDouble_mono (show (c : ℚ) ≤ (c : ℚ) + toDouble (toDouble (ceiling b - c) / 10)
      by linarith)
    rw [hcr] at h
    exact h
  · have h := toDouble_mono (show (c : ℚ) + toDouble (toDouble (ceiling b - c) / 10) ≤ ceiling b
      by linarith)
    rw [ceiling_idem] at h
    exact h

/-- One up-step below the ceiling, for operands a `double` holds exactly. -/
theorem up_below (b c : Int) (hb : 0 < b) (hb2 : b ≤ 2 ^ 53) (hc : |c| ≤ 2 ^ 53)
    (hlt : (c : ℚ) < ceiling b) :
    ∃ new : Int, volume_fader_up b c = some new ∧ c ≤ new ∧ (new : ℚ) ≤ ceiling b := by
  have hcr : toDouble (c : ℚ) = c := toDouble_intCast c hc
  obtain ⟨h1, h2⟩ := up_sum_bounds b c hcr hlt
  have hC0 := ceiling_pos b hb
  have hC54 : ceiling b ≤ (2 : ℚ) ^ 54 := by
    apply ceiling_le_of_le b 54 hb hb2
    have : ((b : Int) : ℚ) ≤ ((2 ^ 53 : Int) : ℚ) := by exact_mod_cast hb2
    push_cast at this
    linarith
  have t1 := le_trunc c _ h1
  have t2 := trunc_le _ _ hC0.le h2
  refine ⟨_, ?_, t1, t2⟩
  unfold volume_fader_up
  rw [hcr, if_pos hlt]
  unfold toLong
  rw [if_pos]
  rw [abs_le] at hc
  have t3 : (trunc (toDouble ((c : ℚ) + toDouble (toDouble (ceiling b - c) / 10))) : ℚ)
      ≤ ((2 ^ 54 : Int) : ℚ) := by
    push_cast
    linarith
  have t4 : trunc (toDouble ((c : ℚ) + toDouble (toDouble (ceiling b - c) / 10))) ≤ 2 ^ 54 := by
    exact_mod_cast t3
  unfold LONG_MIN LONG_MAX
  constructor <;> omega

theorem up_at_ceiling (b c : Int) (hc : |c| ≤ 2 ^ 53) (hge : ceiling b ≤ (c : ℚ)) :
    volume_fader_up b c = some c := by
  unfold volume_fader_up
  rw [toDouble_intCast c hc, if_neg (not_lt.mpr hge)]

/-- While the ceiling is at least 10 away, the up-step raises `current`. -/
theorem up_progress (b c : Int) (new : Int) (hc : |c| ≤ 2 ^ 53) (hc1 : |c + 1| ≤ 2 ^ 53)
    (hgap : (c : ℚ) + 10 ≤ ceiling b) (hnew : volume_fader_up b c = some new) :
    c + 1 ≤ new := by
  have hcr : toDouble (c : ℚ) = c := toDouble_intCast c hc
  have hlt : (c : ℚ) < ceiling b := by linarith
  have h10 : toDouble (10 : ℚ) = 10 := by
    have := toDouble_intCast 10 (by norm_num)
    simpa using this
  have h1 : toDouble (1 : ℚ) = 1 := by
    have := toDouble_intCast 1 (by norm_num)
    simpa using this
  have hg : (10 : ℚ) ≤ toDouble (ceiling b - c) := by
    have := toDouble_mono (show (10 : ℚ) ≤ ceiling b - c by linarith)
    rw [h10] at this
    exact this
  have hs : (1 : ℚ) ≤ toDouble (toDouble (ceiling b - c) / 10) := by
    have := toDouble_mono (show (1 : ℚ) ≤ toDouble (ceiling b - c) / 10 by linarith)
    rw [h1] at this
    exact this
  have hv : ((c + 1 : Int) : ℚ) ≤ toDouble ((c : ℚ) + toDouble (toDouble (ceiling b - c) / 10)) := by
    have := toDouble_mono (show ((c + 1 : Int) : ℚ)
      ≤ (c : ℚ) + toDouble (toDouble (ceiling b - c) / 10) by push_cast; linarith)
    rw [toDouble_intCast (c + 1) hc1] at this
    exact this
  unfold volume_fader_up at hnew
  rw [hcr, if_pos hlt] at hnew
  unfold toLong at hnew
  split at hnew
  · have := le_trunc (c + 1) _ hv
    simp only [Option.some.injEq] at hnew
    omega
  · simp at hnew

/-! ## Up-ramp -/

theorem ceiling_le_two_pow_53 (b : Int) (hb : 0 < b) (hb2 : b ≤ 2 ^ 52) :
    ceiling b ≤ (2 : ℚ) ^ 53 := by
  apply ceiling_le_of_le b 53 hb (by omega)
  have : ((b : Int) : ℚ) ≤ ((2 ^ 52 : Int) : ℚ) := by exact_mod_cast hb2
  push_cast at this
  linarith

theorem ceiling_lt_three_mul (b : Int) (hb : 0 < b) (hb2 : b ≤ 2 ^ 53) :
    ceiling b < 3 * (b : ℚ) := by
  have hbq : (0 : ℚ) < b := by exact_mod_cast hb
  have hr : toDouble (b : ℚ) = b := toDouble_intCast b (by rw [abs_le]; constructor <;> omega)
  unfold ceiling
  rw [hr, toDouble_126]
  have h := toDouble_le_two_mul ((b : ℚ) * (5674535530486825 / 4503599627370496))
    (by positivity)
  have : (5674535530486825 / 4503599627370496 : ℚ) < 3 / 2 := by norm_num
  nlinarith

theorem abs_le_of_bounds (b v : Int) (hb : 0 < b) (hv : b ≤ v) (hC : (v : ℚ) ≤ (2 : ℚ) ^ 53) :
    |v| ≤ 2 ^ 53 := by
  have h1 : ((v : Int) : ℚ) ≤ ((2 ^ 53 : Int) : ℚ) := by
    push_cast
    exact hC
  have h2 : v ≤ 2 ^ 53 := by exact_mod_cast h1
  rw [abs_le]
  constructor <;> omega

/-- One step of the up-ramp from a value between `base` and the ceiling. -/
theorem up_step (b v : Int) (hb : 0 < b) (hb2 : b ≤ 2 ^ 52) (hv : b ≤ v)
    (hvC : (v : ℚ) ≤ ceiling b) :
    ∃ w : Int, volume_fader_up b v = some w ∧ v ≤ w ∧ (w : ℚ) ≤ ceiling b
      ∧ ((v : ℚ) + 10 ≤ ceiling b → v + 1 ≤ w) := by
  have hC := ceiling_le_two_pow_53 b hb hb2
  have hva := abs_le_of_bounds b v hb hv (le_trans hvC hC)
  rcases lt_or_eq_of_le hvC with hlt | heq
  · obtain ⟨w, hw, h1, h2⟩ := up_below b v hb (by omega) hva hlt
    refine ⟨w, hw, h1, h2, fun hgap => ?_⟩
    have hv1 : |v + 1| ≤ 2 ^ 53 := by
      have h3 : ((v + 1 : Int) : ℚ) ≤ ((2 ^ 53 : Int) : ℚ) := by
        push_cast
        linarith
      have h4 : v + 1 ≤ 2 ^ 53 := by exact_mod_cast h3
      rw [abs_le]
      constructor <;> omega
    exact up_progress b v w hva hv1 hgap hw
  · refine ⟨v, up_at_ceiling b v hva heq.ge, le_refl _, hvC, fun hgap => ?_⟩
    linarith

theorem ramp_up_inv (b : Int) (hb : 0 < b) (hb2 : b ≤ 2 ^ 52) (n : Nat) :
    ∃ v : Int, ramp_up b n = some v ∧ b ≤ v ∧ (v : ℚ) ≤ ceiling b := by
  induction n with
  | zero => exact ⟨b, rfl, le_refl _, base_le_ceiling b hb (by omega)⟩
  | succ k ih =>
    obtain ⟨v, hv, h1, h2⟩ := ih
    obtain ⟨w, hw, h3, h4, _⟩ := up_step b v hb hb2 h1 h2
    refine ⟨w, ?_, by omega, h4⟩
    simp only [ramp_up, hv, Option.some_bind, hw]

theorem ramp_up_succ (b : Int) (n : Nat) (v : Int) (hv : ramp_up b n = some v) :
    ramp_up b (n + 1) = volume_fader_up b v := by
  simp only [ramp_up, hv, Option.some_bind]

theorem ramp_up_fixed (b : Int) (N : Nat) (h : ramp_up b (N + 1) = ramp_up b N) (k : Nat) :
    ramp_up b (N + k) = ramp_up b N := by
  induction k with
  | zero => rfl
  | succ j ih =>
    show (ramp_up b (N + j)).bind (volume_fader_up b) = ramp_up b N
    rw [ih]
    exact h

theorem ramp_up_reach (b : Int) (hb : 0 < b) (hb2 : b ≤ 2 ^ 52) (k : Nat) :
    (∃ j : Nat, ramp_up b (j + 1) = ramp_up b j)
    ∨ ∃ v : Int, ramp_up b k = some v ∧ b + k ≤ v := by
  induction k with
  | zero => exact Or.inr ⟨b, rfl, by simp⟩
  | succ k ih =>
    rcases ih with h | ⟨v, hv, hbk⟩
    · exact Or.inl h
    · obtain ⟨v2, hv2, h1, h2⟩ := ramp_up_inv b hb hb2 k
      have hvv : v2 = v := by
        rw [hv] at hv2
        exact (Option.some.inj hv2).symm
      subst hvv
      obtain ⟨w, hw, h3, _, _⟩ := up_step b v2 hb hb2 h1 h2
      by_cases hwv : w = v2
      · left
        refine ⟨k, ?_⟩
        rw [ramp_up_succ b k v2 hv, hw, hv, hwv]
      · right
        refine ⟨w, ?_, ?_⟩
        · rw [ramp_up_succ b k v2 hv, hw]
        · push_cast
          omega

theorem ramp_up_has_fixed_point (b : Int) (hb : 0 < b) (hb2 : b ≤ 2 ^ 52) :
    ∃ j : Nat, ramp_up b (j + 1) = ramp_up b j := by
  rcases ramp_up_reach b hb hb2 (2 * b).toNat with h | ⟨v, hv, hbk⟩
  · exact h
  · exfalso
    obtain ⟨v2, hv2, _, h2⟩ := ramp_up_inv b hb hb2 (2 * b).toNat
    have hvv : v2 = v := by
      rw [hv] at hv2
      exact (Option.some.inj hv2).symm
    subst hvv
    have h3 := ceiling_lt_three_mul b hb (by omega)
    have h4 : (((2 * b).toNat : Nat) : Int) = 2 * b := Int.toNat_of_nonneg (by omega)
    have h5 : 3 * b ≤ v2 := by omega
    have h6 : ((3 * b : Int) : ℚ) ≤ (v2 : ℚ) := by exact_mod_cast h5
    push_cast at h6
    linarith

/-! ## Evaluation of single steps -/

theorem up_eval (b p r : Int) (C pd g s v : ℚ) (hC : ceiling b = C)
    (hp : toDouble (p : ℚ) = pd) (hlt : pd < C) (hg : toDouble (C - pd) = g)
    (hs : toDouble (g / 10) = s) (hv : toDouble (pd + s) = v) (hr : toLong v = some r) :
    volume_fader_up b p = some r := by
  unfold volume_fader_up
  rw [hC, hp, if_pos hlt, hg, hs, hv, hr]

theorem up_eval_stop (b p : Int) (C pd : ℚ) (hC : ceiling b = C)
    (hp : toDouble (p : ℚ) = pd) (hge : ¬ pd < C) :
    volume_fader_up b p = some p := by
  unfold volume_fader_up
  rw [hC, hp, if_neg hge]

theorem down_eval (b p r : Int) (C pd g s v : ℚ) (hgt : p > b) (hC : ceiling b = C)
    (hp : toDouble (p : ℚ) = pd) (hg : toDouble (C - pd) = g)
    (hs : toDouble (g / 20) = s) (hv : toDouble (pd - s) = v) (hr : toLong v = some r) :
    volume_fader_down b p = some r := by
  unfold volume_fader_down
  rw [if_pos hgt, hC, hp, hg, hs, hv, hr]

theorem ceiling_16327 : ceiling 16327 = ((5654793799210107 : ℚ) / 274877906944) := by
  unfold ceiling
  rw [toDouble_intCast 16327 (by rw [abs_le]; constructor <;> norm_num), toDouble_126]
  refine (toDouble_eq_of_near _ (14) 5654793799210107 ?_ ?_ ?_ ?_).trans ?_ <;> norm_num

theorem up_16327_16327 : volume_fader_up 16327 16327 = some 16751 := by
  refine up_eval 16327 16327 16751 ((5654793799210107 : ℚ) / 274877906944) (16327 : ℚ) ((1166862212535419 : ℚ) / 274877906944) ((3733959080113341 : ℚ) / 8796093022208) ((2302308903964115 : ℚ) / 137438953472)
    ceiling_16327 ?_ (by norm_num) ?_ ?_ ?_ ?_
  · refine (toDouble_eq_of_near _ (13) 8975863173349376 ?_ ?_ ?_ ?_).trans ?_ <;> norm_num
  · refine (toDouble_eq_of_near _ (12) 4667448850141676 ?_ ?_ ?_ ?_).trans ?_ <;> norm_num
  · refine (toDouble_eq_of_near _ (8) 7467918160226682 ?_ ?_ ?_ ?_).trans ?_ <;> norm_num
  · refine (toDouble_eq_of_near _ (14) 4604617807928230 ?_ ?_ ?_ ?_).trans ?_ <;> norm_num
  · refine toLong_of_bounds _ 16751 ?_ ?_ ?_ ?_ ?_ <;> norm_num [LONG_MIN, LONG_MAX]

theorem down_16327_16751 : volume_fader_down 16327 16751 = some 16559 := by
  refine down_eval 16327 16751 16559 ((5654793799210107 : ℚ) / 274877906944) (16751 : ℚ) ((1050313979991163 : ℚ) / 274877906944) ((6722009471943443 : ℚ) / 35184372088832) ((2275982060109693 : ℚ) / 137438953472) (by norm_num)
    ceiling_16327 ?_ ?_ ?_ ?_ ?_
  · refine (toDouble_eq_of_near _ (14) 4604479819218944 ?_ ?_ ?_ ?_).trans ?_ <;> norm_num
  · refine (toDouble_eq_of_near _ (11) 8402511839929304 ?_ ?_ ?_ ?_).trans ?_ <;> norm_num
  · refine (toDouble_eq_of_near _ (7) 6722009471943443 ?_ ?_ ?_ ?_).trans ?_ <;> norm_num
  · refine (toDouble_eq_of_near _ (14) 4551964120219386 ?_ ?_ ?_ ?_).trans ?_ <;> norm_num
  · refine toLong_of_bounds _ 16559 ?_ ?_ ?_ ?_ ?_ <;> norm_num [LONG_MIN, LONG_MAX]

theorem down_16327_16559 : volume_fader_down 16327 16559 = some 16358 := by
  refine down_eval 16327 16559 16358 ((5654793799210107 : ℚ) / 274877906944) (16559 : ℚ) ((1103090538124411 : ℚ) / 274877906944) ((3529889721998115 : ℚ) / 17592186044416) ((8993097468358951 : ℚ) / 549755813888) (by norm_num)
    ceiling_16327 ?_ ?_ ?_ ?_ ?_
  · refine (toDouble_eq_of_near _ (14) 4551703261085696 ?_ ?_ ?_ ?_).trans ?_ <;> norm_num
  · refine (toDouble_eq_of_near _ (11) 8824724304995288 ?_ ?_ ?_ ?_).trans ?_ <;> norm_num
  · refine (toDouble_eq_of_near _ (7) 7059779443996230 ?_ ?_ ?_ ?_).trans ?_ <;> norm_num
  · refine (toDouble_eq_of_near _ (13) 8993097468358951 ?_ ?_ ?_ ?_).trans ?_ <;> norm_num
  · refine toLong_of_bounds _ 16358 ?_ ?_ ?_ ?_ ?_ <;> norm_num [LONG_MIN, LONG_MAX]

theorem down_16327_16358 : volume_fader_down 16327 16358 = some 16147 := by
  refine down_eval 16327 16358 16147 ((5654793799210107 : ℚ) / 274877906944) (16358 : ℚ) ((1158340997420155 : ℚ) / 274877906944) ((231668199484031 : ℚ) / 1099511627776) ((138704242247467 : ℚ) / 8589934592) (by norm_num)
    ceiling_16327 ?_ ?_ ?_ ?_ ?_
  · refine (toDouble_eq_of_near _ (13) 8992905603579904 ?_ ?_ ?_ ?_).trans ?_ <;> norm_num
  · refine (toDouble_eq_of_near _ (12) 4633363989680620 ?_ ?_ ?_ ?_).trans ?_ <;> norm_num
  · refine (toDouble_eq_of_near _ (7) 7413382383488992 ?_ ?_ ?_ ?_).trans ?_ <;> norm_num
  · refine (toDouble_eq_of_tie _ (13) 8877071503837888 ?_ ?_ ?_ ?_).trans ?_ <;> norm_num
  · refine toLong_of_bounds _ 16147 ?_ ?_ ?_ ?_ ?_ <;> norm_num [LONG_MIN, LONG_MAX]

theorem ceiling_50 : ceiling 50 = (63 : ℚ) := by
  unfold ceiling
  rw [toDouble_intCast 50 (by rw [abs_le]; constructor <;> norm_num), toDouble_126]
  refine (toDouble_eq_of_near _ (5) 8866461766385664 ?_ ?_ ?_ ?_).trans ?_ <;> norm_num

theorem up_50_50 : volume_fader_up 50 50 = some 51 := by
  refine up_eval 50 50 51 (63 : ℚ) (50 : ℚ) (13 : ℚ) ((5854679515581645 : ℚ) / 4503599627370496) ((3609916576314163 : ℚ) / 70368744177664)
    ceiling_50 ?_ (by norm_num) ?_ ?_ ?_ ?_
  · refine (toDouble_eq_of_near _ (5) 7036874417766400 ?_ ?_ ?_ ?_).trans ?_ <;> norm_num
  · refine (toDouble_eq_of_near _ (3) 7318349394477056 ?_ ?_ ?_ ?_).trans ?_ <;> norm_num
  · refine (toDouble_eq_of_near _ (0) 5854679515581645 ?_ ?_ ?_ ?_).trans ?_ <;> norm_num
  · refine (toDouble_eq_of_near _ (5) 7219833152628326 ?_ ?_ ?_ ?_).trans ?_ <;> norm_num
  · refine toLong_of_bounds _ 51 ?_ ?_ ?_ ?_ ?_ <;> norm_num [LONG_MIN, LONG_MAX]

theorem up_50_51 : volume_fader_up 50 51 = some 52 := by
  refine up_eval 50 51 52 (63 : ℚ) (51 : ℚ) (12 : ℚ) ((5404319552844595 : ℚ) / 4503599627370496) ((3673248446074061 : ℚ) / 70368744177664)
    ceiling_50 ?_ (by norm_num) ?_ ?_ ?_ ?_
  · refine (toDouble_eq_of_near _ (5) 7177611906121728 ?_ ?_ ?_ ?_).trans ?_ <;> norm_num
  · refine (toDouble_eq_of_near _ (3) 6755399441055744 ?_ ?_ ?_ ?_).trans ?_ <;> norm_num
  · refine (toDouble_eq_of_near _ (0) 5404319552844595 ?_ ?_ ?_ ?_).trans ?_ <;> norm_num
  · refine (toDouble_eq_of_near _ (5) 7346496892148122 ?_ ?_ ?_ ?_).trans ?_ <;> norm_num
  · refine toLong_of_bounds _ 52 ?_ ?_ ?_ ?_ ?_ <;> norm_num [LONG_MIN, LONG_MAX]

theorem up_50_52 : volume_fader_up 50 52 = some 53 := by
  refine up_eval 50 52 53 (63 : ℚ) (52 : ℚ) (11 : ℚ) ((2476979795053773 : ℚ) / 2251799813685248) ((7473160631667917 : ℚ) / 140737488355328)
    ceiling_50 ?_ (by norm_num) ?_ ?_ ?_ ?_
  · refine (toDouble_eq_of_near _ (5) 7318349394477056 ?_ ?_ ?_ ?_).trans ?_ <;> norm_num
  · refine (toDouble_eq_of_near _ (3) 6192449487634432 ?_ ?_ ?_ ?_).trans ?_ <;> norm_num
  · refine (toDouble_eq_of_near _ (0) 4953959590107546 ?_ ?_ ?_ ?_).trans ?_ <;> norm_num
  · refine (toDouble_eq_of_near _ (5) 7473160631667917 ?_ ?_ ?_ ?_).trans ?_ <;> norm_num
  · refine toLong_of_bounds _ 53 ?_ ?_ ?_ ?_ ?_ <;> norm_num [LONG_MIN, LONG_MAX]

theorem up_50_53 : volume_fader_up 50 53 = some 54 := by
  refine up_eval 50 53 54 (63 : ℚ) (53 : ℚ) (10 : ℚ) (1 : ℚ) (54 : ℚ)
    ceiling_50 ?_ (by norm_num) ?_ ?_ ?_ ?_
  · refine (toDouble_eq_of_near _ (5) 7459086882832384 ?_ ?_ ?_ ?_).trans ?_ <;> norm_num
  · refine (toDouble_eq_of_near _ (3) 5629499534213120 ?_ ?_ ?_ ?_).trans ?_ <;> norm_num
  · refine (toDouble_eq_of_near _ (0) 4503599627370496 ?_ ?_ ?_ ?_).trans ?_ <;> norm_num
  · refine (toDouble_eq_of_near _ (5) 7599824371187712 ?_ ?_ ?_ ?_).trans ?_ <;> norm_num
  · refine toLong_of_bounds _ 54 ?_ ?_ ?_ ?_ ?_ <;> norm_num [LONG_MIN, LONG_MAX]

theorem up_50_54 : volume_fader_up 50 54 = some 54 := by
  refine up_eval 50 54 54 (63 : ℚ) (54 : ℚ) (9 : ℚ) ((8106479329266893 : ℚ) / 9007199254740992) ((7726488110707507 : ℚ) / 140737488355328)
    ceiling_50 ?_ (by norm_num) ?_ ?_ ?_ ?_
  · refine (toDouble_eq_of_near _ (5) 7599824371187712 ?_ ?_ ?_ ?_).trans ?_ <;> norm_num
  · refine (toDouble_eq_of_near _ (3) 5066549580791808 ?_ ?_ ?_ ?_).trans ?_ <;> norm_num
  · refine (toDouble_eq_of_near _ (-1) 8106479329266893 ?_ ?_ ?_ ?_).trans ?_ <;> norm_num
  · refine (toDouble_eq_of_near _ (5) 7726488110707507 ?_ ?_ ?_ ?_).trans ?_ <;> norm_num
  · refine toLong_of_bounds _ 54 ?_ ?_ ?_ ?_ ?_ <;> norm_num [LONG_MIN, LONG_MAX]

theorem ceiling_9000000000000000 : ceiling 9000000000000000 = (11340000000000000 : ℚ) := by
  unfold ceiling
  rw [toDouble_intCast 9000000000000000 (by rw [abs_le]; constructor <;> norm_num), toDouble_126]
  refine (toDouble_eq_of_near _ (53) 5670000000000000 ?_ ?_ ?_ ?_).trans ?_ <;> norm_num

theorem up_9000000000000000_11339999999999993 : volume_fader_up 9000000000000000 11339999999999993 = some 11339999999999992 := by
  refine up_eval 9000000000000000 11339999999999993 11339999999999992 (11340000000000000 : ℚ) (11339999999999992 : ℚ) (8 : ℚ) ((3602879701896397 : ℚ) / 4503599627370496) (11339999999999992 : ℚ)
    ceiling_9000000000000000 ?_ (by norm_num) ?_ ?_ ?_ ?_
  · refine (toDouble_eq_of_tie _ (53) 5669999999999996 ?_ ?_ ?_ ?_).trans ?_ <;> norm_num
  · refine (toDouble_eq_of_near _ (3) 4503599627370496 ?_ ?_ ?_ ?_).trans ?_ <;> norm_num
  · refine (toDouble_eq_of_near _ (-1) 7205759403792794 ?_ ?_ ?_ ?_).trans ?_ <;> norm_num
  · refine (toDouble_eq_of_near _ (53) 5669999999999996 ?_ ?_ ?_ ?_).trans ?_ <;> norm_num
  · refine toLong_of_bounds _ 11339999999999992 ?_ ?_ ?_ ?_ ?_ <;> norm_num [LONG_MIN, LONG_MAX]

theorem ceiling_100 : ceiling 100 = (126 : ℚ) := by
  unfold ceiling
  rw [toDouble_intCast 100 (by rw [abs_le]; constructor <;> norm_num), toDouble_126]
  refine (toDouble_eq_of_near _ (6) 8866461766385664 ?_ ?_ ?_ ?_).trans ?_ <;> norm_num

/-! ## The arithmetic prescribed by claim C1 -/

theorem trunc_div (n : Int) (d : Nat) (hd : 0 < d) :
    trunc ((n : ℚ) / (d : ℚ)) = n.tdiv d := by
  have hdq : (0 : ℚ) < (d : ℚ) := by exact_mod_cast hd
  unfold trunc
  by_cases hn : 0 ≤ n
  · have h0 : (0 : ℚ) ≤ (n : ℚ) / (d : ℚ) := div_nonneg (by exact_mod_cast hn) hdq.le
    rw [if_pos h0, Rat.floor_intCast_div_natCast, Int.tdiv_eq_ediv hn (by omega)]
  · have hn2 : n < 0 := by omega
    have h0 : ¬ (0 : ℚ) ≤ (n : ℚ) / (d : ℚ) := by
      rw [not_le]
      exact div_neg_of_neg_of_pos (by exact_mod_cast hn2) hdq
    have h1 : ⌈(n : ℚ) / (d : ℚ)⌉ = -⌊((-n : Int) : ℚ) / (d : ℚ)⌋ := by
      rw [← Int.ceil_neg]
      congr 1
      push_cast
      ring
    rw [if_neg h0, h1, Rat.floor_intCast_div_natCast]
    have h2 : n.tdiv d = -((-n).tdiv d) := by rw [Int.neg_tdiv, neg_neg]
    rw [h2, Int.tdiv_eq_ediv (by omega) (by omega)]

theorem lt_ceiling_iff (b c : Int) : ((c : ℚ) < b * 1.26) ↔ 50 * c < 63 * b := by
  have h : (50 * c < 63 * b) ↔ ((50 : ℚ) * c < 63 * b) := by exact_mod_cast Iff.rfl
  rw [h]
  constructor <;> intro h2 <;> linarith

/-- The exact up-step as an integer computation. -/
theorem volume_fader_up_exact_eq (b c : Int) :
    volume_fader_up_exact b c
      = if 50 * c < 63 * b then (450 * c + 63 * b).tdiv 500 else c := by
  unfold volume_fader_up_exact
  have hv : (c : ℚ) + ((b * 1.26) - c) / 10
      = ((450 * c + 63 * b : Int) : ℚ) / ((500 : Nat) : ℚ) := by
    push_cast
    ring
  by_cases h : 50 * c < 63 * b
  · rw [if_pos ((lt_ceiling_iff b c).mpr h), if_pos h, hv, trunc_div _ _ (by decide)]
    rfl
  · rw [if_neg (fun h2 => h ((lt_ceiling_iff b c).mp h2)), if_neg h]

/-- The exact down-step as an integer computation. -/
theorem volume_fader_down_exact_eq (b c : Int) :
    volume_fader_down_exact b c
      = if b < c then (1050 * c - 63 * b).tdiv 1000 else c := by
  unfold volume_fader_down_exact
  have hc : ((c : ℚ) > b) ↔ b < c := by exact_mod_cast Iff.rfl
  have hv : (c : ℚ) - ((b * 1.26) - c) / 20
      = ((1050 * c - 63 * b : Int) : ℚ) / ((1000 : Nat) : ℚ) := by
    push_cast
    ring
  by_cases h : b < c
  · rw [if_pos (hc.mpr h), if_pos h, hv, trunc_div _ _ (by decide)]
    rfl
  · rw [if_neg (fun h2 => h (hc.mp h2)), if_neg h]

/-! ## Claims on the volume ramp -/

/-- C4 as stated fails for large values: at `base = 9000000000000000` and
`current = 11339999999999993`, which is below `base * 1.26`, the up-step
stores 11339999999999992, a value below `current`. -/
theorem volume_fader_up_lowers_current :
    (0 : Int) < 9000000000000000
    ∧ ((11339999999999993 : Int) : ℚ) < ((9000000000000000 : Int) : ℚ) * 1.26
    ∧ toDouble ((11339999999999993 : Int) : ℚ) < ceiling 9000000000000000
    ∧ volume_fader_up 9000000000000000 11339999999999993 = some 11339999999999992
    ∧ ¬ ((11339999999999993 : Int) ≤ 11339999999999992) := by
  refine ⟨by decide, by norm_num, ?_, up_9000000000000000_11339999999999993, by decide⟩
  rw [ceiling_9000000000000000]
  have h : toDouble ((11339999999999993 : Int) : ℚ) = (11339999999999992 : ℚ) := by
    refine (toDouble_eq_of_tie _ (53) 5669999999999996 ?_ ?_ ?_ ?_).trans ?_ <;> norm_num
  rw [h]
  norm_num

/-- C4, amended. For `0 < base ≤ 2^53` and `|current| ≤ 2^53` (values a `double`
holds exactly), one call of `volume_fader_up`: when `current` is below the
`double` value of `base * 1.26`, the stored value lies between `current` and
that ceiling; when `current` is at or above it, `current` is left unchanged. -/
theorem volume_fader_up_no_overshoot (base current : Int) (hb : 0 < base)
    (hb2 : base ≤ 2 ^ 53) (hc : |current| ≤ 2 ^ 53) :
    ((current : ℚ) < ceiling base →
      ∃ new : Int, volume_fader_up base current = some new
        ∧ new = trunc (toDouble ((current : ℚ)
            + toDouble (toDouble (ceiling base - current) / 10)))
        ∧ current ≤ new ∧ (new : ℚ) ≤ ceiling base)
    ∧ (ceiling base ≤ (current : ℚ) → volume_fader_up base current = some current) := by
  constructor
  · intro hlt
    obtain ⟨new, h1, h2, h3⟩ := up_below base current hb hb2 hc hlt
    refine ⟨new, h1, ?_, h2, h3⟩
    have hcr : toDouble (current : ℚ) = current := toDouble_intCast current hc
    unfold volume_fader_up at h1
    rw [hcr, if_pos hlt] at h1
    unfold toLong at h1
    split at h1
    · exact (Option.some.inj h1).symm
    · simp at h1
  · exact up_at_ceiling base current hc

/-- Witness of the amended C4 at `base = 100`, whose ceiling is 126, with
`current = 101` and `current = 126`. -/
theorem volume_fader_up_no_overshoot_witness :
    (∃ new : Int, volume_fader_up 100 101 = some new
        ∧ new = trunc (toDouble (((101 : Int) : ℚ)
            + toDouble (toDouble (ceiling 100 - ((101 : Int) : ℚ)) / 10)))
        ∧ 101 ≤ new ∧ (new : ℚ) ≤ ceiling 100)
    ∧ volume_fader_up 100 126 = some 126 :=
  ⟨(volume_fader_up_no_overshoot 100 101 (by decide) (by decide) (by decide)).1
      (by rw [ceiling_100]; norm_num),
   (volume_fader_up_no_overshoot 100 126 (by decide) (by decide) (by decide)).2
      (by rw [ceiling_100]; norm_num)⟩

/-- C3 as stated fails at `base = 50`: every value of the up-ramp
50, 51, 52, 53, 54, 54, ... is at least 1 (indeed 9) below the ceiling
`50 * 1.26 = 63`. -/
theorem ramp_up_50_not_within_one :
    (∀ n : Nat, ∃ v : Int, ramp_up 50 n = some v)
    ∧ ¬ ∃ (n : Nat) (v : Int), ramp_up 50 n = some v
        ∧ ((50 : Int) : ℚ) * 1.26 - (v : ℚ) < 1 := by
  have hinv : ∀ n : Nat, ∃ v : Int, ramp_up 50 n = some v ∧ 50 ≤ v ∧ v ≤ 54 := by
    intro n
    induction n with
    | zero => exact ⟨50, rfl, by decide, by decide⟩
    | succ k ih =>
      obtain ⟨v, hv, h1, h2⟩ := ih
      rw [ramp_up_succ 50 k v hv]
      have hcases : v = 50 ∨ v = 51 ∨ v = 52 ∨ v = 53 ∨ v = 54 := by omega
      rcases hcases with h | h | h | h | h <;> subst h
      · exact ⟨51, up_50_50, by decide, by decide⟩
      · exact ⟨52, up_50_51, by decide, by decide⟩
      · exact ⟨53, up_50_52, by decide, by decide⟩
      · exact ⟨54, up_50_53, by decide, by decide⟩
      · exact ⟨54, up_50_54, by decide, by decide⟩
  constructor
  · intro n
    obtain ⟨v, hv, _, _⟩ := hinv n
    exact ⟨v, hv⟩
  · rintro ⟨n, v, hv, h4⟩
    obtain ⟨v2, hv2, _, h2⟩ := hinv n
    rw [hv] at hv2
    have hvv : v = v2 := Option.some.inj hv2
    subst hvv
    have h3 : (v : ℚ) ≤ ((54 : Int) : ℚ) := by exact_mod_cast h2
    push_cast at h3 h4
    linarith

/-- C3, amended. For `0 < base ≤ 2^52` the up-ramp started at `base` is defined
at every step, non-decreasing, never above the `double` value of `base * 1.26`,
and after finitely many steps it stops changing at a value whose distance to
that ceiling is below 10. -/
theorem ramp_up_converges (base : Int) (hb : 0 < base) (hb2 : base ≤ 2 ^ 52) :
    (∀ n : Nat, ∃ v w : Int, ramp_up base n = some v ∧ ramp_up base (n + 1) = some w
        ∧ v ≤ w ∧ (v : ℚ) ≤ ceiling base ∧ (w : ℚ) ≤ ceiling base)
    ∧ ∃ (N : Nat) (L : Int), ramp_up base N = some L
        ∧ ceiling base - (L : ℚ) < 10
        ∧ ∀ n : Nat, N ≤ n → ramp_up base n = some L := by
  constructor
  · intro n
    obtain ⟨v, hv, h1, h2⟩ := ramp_up_inv base hb hb2 n
    obtain ⟨w, hw, h3, h4, _⟩ := up_step base v hb hb2 h1 h2
    exact ⟨v, w, hv, by rw [ramp_up_succ base n v hv, hw], h3, h2, h4⟩
  · obtain ⟨N, hN⟩ := ramp_up_has_fixed_point base hb hb2
    obtain ⟨L, hL, h1, h2⟩ := ramp_up_inv base hb hb2 N
    refine ⟨N, L, hL, ?_, ?_⟩
    · by_contra hgap
      obtain ⟨w, hw, _, _, h5⟩ := up_step base L hb hb2 h1 h2
      have h6 := h5 (by linarith)
      rw [ramp_up_succ base N L hL, hw, hL] at hN
      have h7 : w = L := Option.some.inj hN
      omega
    · intro n hn
      obtain ⟨k, rfl⟩ := Nat.exists_eq_add_of_le hn
      rw [ramp_up_fixed base N hN k, hL]

/-- Witness of the amended C3 at `base = 50`. -/
theorem ramp_up_converges_witness :
    (∀ n : Nat, ∃ v w : Int, ramp_up 50 n = some v ∧ ramp_up 50 (n + 1) = some w
        ∧ v ≤ w ∧ (v : ℚ) ≤ ceiling 50 ∧ (w : ℚ) ≤ ceiling 50)
    ∧ ∃ (N : Nat) (L : Int), ramp_up 50 N = some L
        ∧ ceiling 50 - (L : ℚ) < 10
        ∧ ∀ n : Nat, N ≤ n → ramp_up 50 n = some L :=
  ramp_up_converges 50 (by decide) (by decide)

/-! ## Down-ramp and control loop -/

/-- C2 at `base = 16327`, `current = 16358`: one down-step stores 16147, which is
below `base`, in the code's `double` arithmetic and in exact arithmetic alike. -/
theorem ramp_down_below_base :
    (16327 : Int) < 16358
    ∧ ramp_down 16327 16358 1 = some 16147
    ∧ volume_fader_down_exact 16327 16358 = 16147
    ∧ (16147 : Int) < 16327 := by
  refine ⟨by decide, ?_, ?_, by decide⟩
  · show (some (16358 : Int)).bind (volume_fader_down 16327) = some 16147
    rw [Option.some_bind]
    exact down_16327_16358
  · rw [volume_fader_down_exact_eq]
    decide

theorem tick_key_f (b c : Int) :
    tick b c (Tick.poll KEY_F) = volume_fader_up b c := by
  simp [tick, Tick.poll]

theorem tick_no_key (b c : Int) :
    tick b c (Tick.poll (-1)) = volume_fader_down b c := by
  simp [tick, Tick.poll, KEY_F]

theorem child_loop_nil (b c : Int) : child_loop b c [] = some [] := by
  rw [child_loop]

theorem child_loop_cons (b c next : Int) (t : Tick) (ts : List Tick) (rest : List Int)
    (h1 : tick b c t = some next) (h2 : child_loop b next ts = some rest) :
    child_loop b c (t :: ts) = some (next :: rest) := by
  rw [child_loop, h1]
  simp only [h2]

theorem child_main_of_loop (b : Int) (ticks : List Tick) (volumes : List Int)
    (h : child_loop b b ticks = some volumes) :
    child_main b ticks = some { status := EXIT_SUCCESS, volumes := volumes } := by
  unfold child_main
  simp only [h]

/-- C1 at `base_volume = 16327`: one tick with the key `f` followed by three
ticks without it leave `current_volume` at 16751, 16559, 16358 and then 16147,
below `base_volume`; the steps give the same values in exact arithmetic. -/
theorem child_main_below_base :
    child_main 16327 [Tick.poll KEY_F, Tick.poll (-1), Tick.poll (-1), Tick.poll (-1)]
      = some { status := EXIT_SUCCESS, volumes := [16751, 16559, 16358, 16147] }
    ∧ volume_fader_up_exact 16327 16327 = 16751
    ∧ volume_fader_down_exact 16327 16751 = 16559
    ∧ volume_fader_down_exact 16327 16559 = 16358
    ∧ volume_fader_down_exact 16327 16358 = 16147
    ∧ ¬ ((16327 : Int) ≤ 16147) := by
  refine ⟨?_, ?_, ?_, ?_, ?_, by decide⟩
  · apply child_main_of_loop
    apply child_loop_cons _ _ _ _ _ _ ((tick_key_f _ _).trans up_16327_16327)
    apply child_loop_cons _ _ _ _ _ _ ((tick_no_key _ _).trans down_16327_16751)
    apply child_loop_cons _ _ _ _ _ _ ((tick_no_key _ _).trans down_16327_16559)
    apply child_loop_cons _ _ _ _ _ _ ((tick_no_key _ _).trans down_16327_16358)
    exact child_loop_nil _ _
  · rw [volume_fader_up_exact_eq]
    decide
  · rw [volume_fader_down_exact_eq]
    decide
  · rw [volume_fader_down_exact_eq]
    decide
  · rw [volume_fader_down_exact_eq]
    decide

/-! ## Playback loop -/

theorem parent_loop_exit (p : Playback) (i pos : Nat) (err : Int)
    (h : ¬ (p.stopAll i = false ∧ pos < p.file_end)) :
    parent_loop p i pos err = { err := err, iterations := [] } := by
  rw [parent_loop, dif_neg h]

theorem parent_loop_eof (p : Playback) (i pos : Nat) (err : Int)
    (h : p.stopAll i = false ∧ pos < p.file_end)
    (h0 : fread_items (p.file_end - pos) = 0) :
    parent_loop p i pos err
      = { err := 0, iterations := [[Event.fread 0, Event.printf_eof]] } := by
  rw [parent_loop, dif_pos h]
  simp only [h0, if_true]

theorem parent_loop_write (p : Playback) (i pos : Nat) (err : Int)
    (h : p.stopAll i = false ∧ pos < p.file_end)
    (h0 : fread_items (p.file_end - pos) ≠ 0) (hw : 0 ≤ p.writei i) :
    parent_loop p i pos err
      = { err := (parent_loop p (i + 1) (pos + fread_bytes (p.file_end - pos))
            (fread_items (p.file_end - pos))).err
          iterations :=
            [Event.fread (fread_items (p.file_end - pos)),
              Event.snd_pcm_writei (BLOCK_SAMPLING * BLOCK_SIZE / 2) (p.writei i)]
            :: (parent_loop p (i + 1) (pos + fread_bytes (p.file_end - pos))
                (fread_items (p.file_end - pos))).iterations } := by
  rw [parent_loop, dif_pos h]
  simp only [h0, if_false, not_lt.mpr hw]

theorem parent_loop_recovered (p : Playback) (i pos : Nat) (err : Int)
    (h : p.stopAll i = false ∧ pos < p.file_end)
    (h0 : fread_items (p.file_end - pos) ≠ 0) (hw : p.writei i < 0) (hr : 0 ≤ p.recover i) :
    parent_loop p i pos err
      = { err := (parent_loop p (i + 1) (pos + fread_bytes (p.file_end - pos))
            (fread_items (p.file_end - pos))).err
          iterations :=
            [Event.fread (fread_items (p.file_end - pos)),
              Event.snd_pcm_writei (BLOCK_SAMPLING * BLOCK_SIZE / 2) (p.writei i),
              Event.snd_pcm_recover (p.recover i)]
            :: (parent_loop p (i + 1) (pos + fread_bytes (p.file_end - pos))
                (fread_items (p.file_end - pos))).iterations } := by
  rw [parent_loop, dif_pos h]
  simp only [h0, if_false, hw, if_true, not_lt.mpr hr]

theorem parent_loop_device_error (p : Playback) (i pos : Nat) (err : Int)
    (h : p.stopAll i = false ∧ pos < p.file_end)
    (h0 : fread_items (p.file_end - pos) ≠ 0) (hw : p.writei i < 0) (hr : p.recover i < 0) :
    parent_loop p i pos err
      = { err := (fread_items (p.file_end - pos) : Int)
          iterations :=
            [[Event.fread (fread_items (p.file_end - pos)),
              Event.snd_pcm_writei (BLOCK_SAMPLING * BLOCK_SIZE / 2) (p.writei i),
              Event.snd_pcm_recover (p.recover i), Event.printf_err (p.recover i)]] } := by
  rw [parent_loop, dif_pos h]
  simp only [h0, if_false, hw, if_true, hr]

theorem parent_main_of_opens (p : Playback) (hopen : p.file_opens = true) :
    parent_main p = some (parent_loop p 0 (BLOCK_SAMPLING * BLOCK_SIZE) 0) := by
  unfold parent_main
  rw [if_pos hopen]

theorem parent_main_8193 (p : Playback) (hopen : p.file_opens = true)
    (hstop : p.stopAll 0 = false) (hlen : p.file_end = BLOCK_SAMPLING * BLOCK_SIZE + 1) :
    parent_main p
      = some { err := 0, iterations := [[Event.fread 0, Event.printf_eof]] } := by
  rw [parent_main_of_opens p hopen]
  congr 1
  apply parent_loop_eof
  · exact ⟨hstop, by rw [hlen]; decide⟩
  · rw [hlen]; decide

theorem parent_main_16385 (p : Playback) (hopen : p.file_opens = true)
    (hstop : ∀ i : Nat, p.stopAll i = false)
    (hsink : 0 ≤ p.writei 0) (hlen : p.file_end = 2 * (BLOCK_SAMPLING * BLOCK_SIZE) + 1) :
    parent_main p
      = some { err := 0
               iterations := [[Event.fread BLOCK_SAMPLING,
                   Event.snd_pcm_writei (BLOCK_SAMPLING * BLOCK_SIZE / 2) (p.writei 0)],
                 [Event.fread 0, Event.printf_eof]] } := by
  rw [parent_main_of_opens p hopen]
  congr 1
  have h1 : fread_items (p.file_end - BLOCK_SAMPLING * BLOCK_SIZE) = BLOCK_SAMPLING := by
    rw [hlen]; decide
  have h2 : BLOCK_SAMPLING * BLOCK_SIZE + fread_bytes (p.file_end - BLOCK_SAMPLING * BLOCK_SIZE)
      = 2 * (BLOCK_SAMPLING * BLOCK_SIZE) := by
    rw [hlen]; decide
  rw [parent_loop_write p 0 _ 0 ⟨hstop 0, by rw [hlen]; decide⟩ (by rw [h1]; decide) hsink,
    h1, h2, parent_loop_eof p 1 _ _ ⟨hstop 1, by rw [hlen]; decide⟩ (by rw [hlen]; decide)]

/-- C5 as stated fails: on an existing file of 8193 bytes the run makes no sink
write at all, its only iteration is the zero-item read followed by the
end-of-file message. -/
theorem parent_main_8193_no_write :
    (playback_of_length 8193).file_end = BLOCK_SAMPLING * BLOCK_SIZE + 1
    ∧ parent_main (playback_of_length 8193)
        = some { err := 0, iterations := [[Event.fread 0, Event.printf_eof]] }
    ∧ ¬ (total_writes { err := 0, iterations := [[Event.fread 0, Event.printf_eof]] } = 1) :=
  ⟨by decide, parent_main_8193 (playback_of_length 8193) rfl rfl (by decide), by decide⟩

/-- C5, amended. For an existing file, with no stop request and a sink that
accepts every write, a file of one block plus one byte gives no sink write: the
first read, made at offset one block, returns zero items, the end of file is
reported and 0 is returned.  One full-block write followed by that zero read is
what a file of two blocks plus one byte gives. -/
theorem parent_main_block_plus_one (p : Playback) (hopen : p.file_opens = true)
    (hstop : ∀ i : Nat, p.stopAll i = false) (hsink : ∀ i : Nat, 0 ≤ p.writei i) :
    (p.file_end = BLOCK_SAMPLING * BLOCK_SIZE + 1 →
      parent_main p
        = some { err := 0, iterations := [[Event.fread 0, Event.printf_eof]] })
    ∧ (p.file_end = 2 * (BLOCK_SAMPLING * BLOCK_SIZE) + 1 →
      parent_main p
        = some { err := 0
                 iterations := [[Event.fread BLOCK_SAMPLING,
                     Event.snd_pcm_writei (BLOCK_SAMPLING * BLOCK_SIZE / 2) (p.writei 0)],
                   [Event.fread 0, Event.printf_eof]] }) :=
  ⟨parent_main_8193 p hopen (hstop 0), parent_main_16385 p hopen hstop (hsink 0)⟩

/-- Witness of the amended C5 on files of 8193 and of 16385 bytes. -/
theorem parent_main_block_plus_one_witness :
    parent_main (playback_of_length 8193)
        = some { err := 0, iterations := [[Event.fread 0, Event.printf_eof]] }
    ∧ parent_main (playback_of_length 16385)
        = some { err := 0
                 iterations := [[Event.fread 512, Event.snd_pcm_writei 4096 4096],
                   [Event.fread 0, Event.printf_eof]] } :=
  ⟨(parent_main_block_plus_one (playback_of_length 8193) rfl (fun _ => rfl)
      (fun _ => by show (0 : Int) ≤ 4096; decide)).1 (by decide),
   (parent_main_block_plus_one (playback_of_length 16385) rfl (fun _ => rfl)
      (fun _ => by show (0 : Int) ≤ 4096; decide)).2 (by decide)⟩

theorem fread_items_le (r : Nat) : fread_items r ≤ BLOCK_SAMPLING := by
  unfold fread_items
  exact Nat.min_le_left _ _

/-- Every iteration of the playback loop has one of four shapes. -/
theorem parent_loop_shape (p : Playback) :
    ∀ (m i pos : Nat) (err : Int), p.file_end - pos ≤ m →
      ∀ it ∈ (parent_loop p i pos err).iterations,
        it = [Event.fread 0, Event.printf_eof]
        ∨ ∃ (n : Nat) (r : Int), 0 < n ∧ n ≤ BLOCK_SAMPLING
            ∧ (it = [Event.fread n, Event.snd_pcm_writei (BLOCK_SAMPLING * BLOCK_SIZE / 2) r]
              ∨ ∃ r2 : Int,
                  it = [Event.fread n, Event.snd_pcm_writei (BLOCK_SAMPLING * BLOCK_SIZE / 2) r,
                    Event.snd_pcm_recover r2]
                  ∨ it = [Event.fread n, Event.snd_pcm_writei (BLOCK_SAMPLING * BLOCK_SIZE / 2) r,
                    Event.snd_pcm_recover r2, Event.printf_err r2]) := by
  intro m
  induction m with
  | zero =>
    intro i pos err hm it hit
    rw [parent_loop_exit p i pos err (by omega)] at hit
    simp at hit
  | succ k ih =>
    intro i pos err hm it hit
    by_cases h : p.stopAll i = false ∧ pos < p.file_end
    · have hnext : p.file_end - (pos + fread_bytes (p.file_end - pos)) ≤ k := by
        have hp := h.2
        simp only [fread_bytes, BLOCK_SAMPLING, BLOCK_SIZE]
        omega
      by_cases h0 : fread_items (p.file_end - pos) = 0
      · rw [parent_loop_eof p i pos err h h0] at hit
        simp only [List.mem_singleton] at hit
        exact Or.inl hit
      · have hpos : 0 < fread_items (p.file_end - pos) := Nat.pos_of_ne_zero h0
        by_cases hw : 0 ≤ p.writei i
        · rw [parent_loop_write p i pos err h h0 hw] at hit
          rcases List.mem_cons.mp hit with hhd | htl
          · exact Or.inr ⟨_, _, hpos, fread_items_le _, Or.inl hhd⟩
          · exact ih _ _ _ hnext it htl
        · have hw2 : p.writei i < 0 := not_le.mp hw
          by_cases hr : 0 ≤ p.recover i
          · rw [parent_loop_recovered p i pos err h h0 hw2 hr] at hit
            rcases List.mem_cons.mp hit with hhd | htl
            · exact Or.inr ⟨_, _, hpos, fread_items_le _, Or.inr ⟨_, Or.inl hhd⟩⟩
            · exact ih _ _ _ hnext it htl
          · rw [parent_loop_device_error p i pos err h h0 hw2 (not_le.mp hr)] at hit
            simp only [List.mem_singleton] at hit
            exact Or.inr ⟨_, _, hpos, fread_items_le _, Or.inr ⟨_, Or.inr hit⟩⟩
    · rw [parent_loop_exit p i pos err h] at hit
      simp at hit

theorem parent_main_8208 :
    parent_main (playback_of_length 8208)
      = some { err := 1, iterations := [[Event.fread 1, Event.snd_pcm_writei 4096 4096]] } := by
  rw [parent_main_of_opens _ rfl]
  congr 1
  rw [parent_loop_write (playback_of_length 8208) 0 _ 0 ⟨rfl, by decide⟩ (by decide)
    (by show (0 : Int) ≤ 4096; decide)]
  rw [parent_loop_exit (playback_of_length 8208) 1 _ _ (by decide)]
  rfl

/-- C6 as stated fails: on an existing file of 8208 bytes the only block read
returns 1 item, fewer than `BLOCK_SAMPLING`, yet the iteration reports no end of
file and writes a full block of 4096 frames to the sink. -/
theorem parent_main_short_read_written :
    (parent_main (playback_of_length 8208)).map ParentRun.iterations
        = some [[Event.fread 1, Event.snd_pcm_writei (BLOCK_SAMPLING * BLOCK_SIZE / 2) 4096]]
    ∧ 1 < BLOCK_SAMPLING
    ∧ Event.printf_eof ∉ [Event.fread 1, Event.snd_pcm_writei (BLOCK_SAMPLING * BLOCK_SIZE / 2) 4096]
    ∧ writes [Event.fread 1, Event.snd_pcm_writei (BLOCK_SAMPLING * BLOCK_SIZE / 2) 4096] = 1 := by
  rw [parent_main_8208]
  decide

/-- C6, amended. For every existing input file, whatever its length, the
playback loop of `parent_main` returns, and in every iteration: if the block
read returns zero full items, the iteration reports the unexpected end of file
and makes no sink write; and every sink write is preceded in its iteration by a
read that returned at least one full item. -/
theorem parent_main_zero_read_not_written (p : Playback) (hopen : p.file_opens = true) :
    ∃ run : ParentRun, parent_main p = some run
      ∧ ∀ it ∈ run.iterations,
          (Event.fread 0 ∈ it → Event.printf_eof ∈ it ∧ writes it = 0)
          ∧ (0 < writes it →
              ∃ n : Nat, 0 < n ∧ n ≤ BLOCK_SAMPLING ∧ it.head? = some (Event.fread n)) := by
  refine ⟨_, parent_main_of_opens p hopen, ?_⟩
  intro it hit
  have hshape := parent_loop_shape p _ 0 (BLOCK_SAMPLING * BLOCK_SIZE) 0 (le_refl _) it hit
  rcases hshape with h | ⟨n, r, hn, hle, h | ⟨r2, h | h⟩⟩
  · subst h
    exact ⟨fun _ => ⟨by simp, by simp [writes]⟩, fun hw => by simp [writes] at hw⟩
  all_goals
    subst h
    refine ⟨fun hz => ?_, fun _ => ⟨n, hn, hle, rfl⟩⟩
    simp at hz
    omega

/-- Witness of the amended C6: the run on 16385 bytes, whose second iteration is
the zero-item read. -/
theorem parent_main_zero_read_not_written_witness :
    parent_main (playback_of_length 16385)
        = some { err := 0
                 iterations := [[Event.fread 512, Event.snd_pcm_writei 4096 4096],
                   [Event.fread 0, Event.printf_eof]] }
    ∧ Event.fread 0 ∈ [Event.fread 0, Event.printf_eof]
    ∧ Event.printf_eof ∈ [Event.fread 0, Event.printf_eof]
    ∧ writes [Event.fread 0, Event.printf_eof] = 0 := by
  obtain ⟨run, hrun, hall⟩ :=
    parent_main_zero_read_not_written (playback_of_length 16385) rfl
  have h16385 := parent_main_16385 (playback_of_length 16385) rfl (fun _ => rfl)
    (by show (0 : Int) ≤ 4096; decide) (by decide)
  rw [h16385] at hrun
  have hr := Option.some.inj hrun
  subst hr
  have hit := hall [Event.fread 0, Event.printf_eof] (by simp)
  exact ⟨h16385, by simp, hit.1 (by simp)⟩

/-! ## Entry point -/

theorem parent_main_device_error :
    parent_main playback_device_error
      = some { err := 512
               iterations := [[Event.fread 512, Event.snd_pcm_writei 4096 (-32),
                 Event.snd_pcm_recover (-32), Event.printf_err (-32)]] } := by
  rw [parent_main_of_opens _ rfl]
  congr 1
  rw [parent_loop_device_error playback_device_error 0 _ 0 ⟨rfl, by decide⟩ (by decide)
    (by show (-32 : Int) < 0; decide) (by show (-32 : Int) < 0; decide)]
  rfl

theorem init_sound_ok (a b : Int) (ha : 0 ≤ a) (hb : 0 ≤ b) : init_sound a b = 0 := by
  unfold init_sound
  rw [if_neg (show ¬ a < 0 by omega), if_neg (show ¬ b < 0 by omega)]

/-- The run of `main` in the parent process once the argument count, the two
initialisations, `fork` and `fopen` have succeeded. -/
theorem main_parent (argv : List String) (env : Env) (run : ParentRun)
    (hargc : 2 ≤ argv.length) (hopen : 0 ≤ env.snd_pcm_open)
    (hparams : 0 ≤ env.snd_pcm_set_params) (hfork : 0 < env.fork)
    (hrun : parent_main (env.playback (argv.getD 1 "")) = some run) :
    main argv env
      = { code := some (stop_volume_mixer env.snd_mixer_close)
          steps := [Step.init_sound 0] ++ [Step.init_volume_mixer (init_volume_mixer env.mixer).2 0]
            ++ [Step.fork env.fork, Step.parent_main (argv.getD 1 "") (some run),
              Step.kill_SIGCHLD, Step.stop_sound (stop_sound env.snd_pcm_drain)]
            ++ (if stop_sound env.snd_pcm_drain < 0 then [Step.stop_sound_message] else [])
            ++ [Step.stop_volume_mixer (stop_volume_mixer env.snd_mixer_close)]
            ++ (if stop_volume_mixer env.snd_mixer_close < 0
                then [Step.stop_volume_mixer_message] else []) } := by
  unfold main
  have h1 : ¬ ((argv.length : Int) < 2) := by omega
  simp only [h1, if_false, init_sound_ok _ _ hopen hparams, init_volume_mixer,
    lt_self_iff_false]
  rw [if_neg (show ¬ env.fork = 0 by omega), if_pos (show env.fork ≥ 0 by omega)]
  simp only [hrun]

/-- C7 as stated fails: with a valid argument, successful initialisation, a sink
write and its recovery both returning `-32`, and successful teardown, `main`
exits with 0. -/
theorem main_device_error_exit_zero :
    (parent_main playback_device_error).map (fun run => run.iterations.map deviceError)
        = some [true]
    ∧ Step.parent_main "track.raw" (parent_main playback_device_error)
        ∈ (main ["fade_audio", "track.raw"] (env_of mixer_ok playback_device_error)).steps
    ∧ (main ["fade_audio", "track.raw"] (env_of mixer_ok playback_device_error)).code
        = some 0 := by
  have hm := main_parent ["fade_audio", "track.raw"] (env_of mixer_ok playback_device_error) _
    (by decide) (by decide) (by decide) (by decide) parent_main_device_error
  refine ⟨?_, ?_, ?_⟩
  · rw [parent_main_device_error]
    decide
  · rw [hm, parent_main_device_error]
    simp
  · rw [hm]
    rfl

/-- C7, amended. In the parent process, with a valid argument (one argument,
naming a file that can be opened) and successful initialisation, the exit code
of `main` is the value returned by `stop_volume_mixer`, whatever the sink
returned during playback and whatever `stop_sound` returned; it is non-zero
only when the mixer fails to close. -/
theorem main_exit_code_is_mixer_close (argv : List String) (env : Env)
    (hargc : argv.length = 2)
    (hfile : (env.playback (argv.getD 1 "")).file_opens = true)
    (hopen : 0 ≤ env.snd_pcm_open) (hparams : 0 ≤ env.snd_pcm_set_params)
    (hfork : 0 < env.fork) :
    (main argv env).code = some (stop_volume_mixer env.snd_mixer_close)
    ∧ ((main argv env).code ≠ some 0 ↔ env.snd_mixer_close ≠ 0) := by
  have hcode : (main argv env).code = some (stop_volume_mixer env.snd_mixer_close) := by
    rw [main_parent argv env _ (by omega) hopen hparams hfork
      (parent_main_of_opens _ hfile)]
  refine ⟨hcode, ?_⟩
  rw [hcode]
  unfold stop_volume_mixer
  simp

/-- Witness of the amended C7: the run with a device error, and a run without
any error, both exit with 0. -/
theorem main_exit_code_is_mixer_close_witness :
    (main ["fade_audio", "track.raw"] (env_of mixer_ok playback_device_error)).code = some 0
    ∧ (main ["fade_audio", "track.raw"] (env_of mixer_ok (playback_of_length 16384))).code
        = some 0 :=
  ⟨(main_exit_code_is_mixer_close ["fade_audio", "track.raw"]
      (env_of mixer_ok playback_device_error) rfl rfl (by decide) (by decide) (by decide)).1,
   (main_exit_code_is_mixer_close ["fade_audio", "track.raw"]
      (env_of mixer_ok (playback_of_length 16384)) rfl rfl (by decide) (by decide)
      (by decide)).1⟩

/-- C8 as stated fails at `argc = 3`: no usage error is raised, the sink is
initialised, the file named by `argv[1]` is played and the run ends with exit
code 0. -/
theorem main_three_arguments_accepted :
    Step.usage_message
        ∉ (main ["fade_audio", "track.raw", "extra"]
            (env_of mixer_ok (playback_of_length 16384))).steps
    ∧ Step.init_sound 0
        ∈ (main ["fade_audio", "track.raw", "extra"]
            (env_of mixer_ok (playback_of_length 16384))).steps
    ∧ Step.parent_main "track.raw" (parent_main (playback_of_length 16384))
        ∈ (main ["fade_audio", "track.raw", "extra"]
            (env_of mixer_ok (playback_of_length 16384))).steps
    ∧ (main ["fade_audio", "track.raw", "extra"]
        (env_of mixer_ok (playback_of_length 16384))).code = some 0 := by
  have hm := main_parent ["fade_audio", "track.raw", "extra"]
    (env_of mixer_ok (playback_of_length 16384)) _
    (by decide) (by decide) (by decide) (by decide) (parent_main_of_opens _ rfl)
  have hp : parent_main (playback_of_length 16384)
      = some (parent_loop (playback_of_length 16384) 0 (BLOCK_SAMPLING * BLOCK_SIZE) 0) :=
    parent_main_of_opens _ rfl
  refine ⟨?_, ?_, ?_, ?_⟩
  · rw [hm]
    simp
  · rw [hm]
    simp
  · rw [hm, hp]
    simp [env_of]
  · rw [hm]
    rfl

theorem usage_message_not_mem (argv : List String) (env : Env) (h : 2 ≤ argv.length) :
    Step.usage_message ∉ (main argv env).steps
    ∧ (main argv env).steps.head?
        = some (Step.init_sound (init_sound env.snd_pcm_open env.snd_pcm_set_params)) := by
  have h1 : ¬ ((argv.length : Int) < 2) := by omega
  unfold main
  simp only [h1, if_false]
  split_ifs <;> (try split) <;> simp

theorem getD_take_two (argv : List String) (h : 2 ≤ argv.length) :
    (argv.take 2).getD 1 "" = argv.getD 1 "" := by
  match argv, h with
  | _ :: _ :: _, _ => rfl

theorem main_take_two (argv : List String) (env : Env) (h : 2 ≤ argv.length) :
    main argv env = main (argv.take 2) env := by
  have h1 : ¬ ((argv.length : Int) < 2) := by omega
  have h2 : ¬ (((argv.take 2).length : Int) < 2) := by
    rw [List.length_take]
    omega
  unfold main
  simp only [h1, h2, if_false, getD_take_two argv h]

/-- C8, amended. With fewer than one argument (`argc < 2`) `main` fails with the
usage message and the non-zero code `EXIT_FAILURE` before anything is
initialised.  Every count `argc ≥ 2` is accepted: no usage message is issued,
`init_sound` is the first step, and the run is the one of `argc = 2` on
`argv[0]`, `argv[1]`. -/
theorem main_argument_count (argv : List String) (env : Env) :
    (argv.length < 2 →
      main argv env = { code := some EXIT_FAILURE, steps := [Step.usage_message] }
      ∧ EXIT_FAILURE ≠ 0)
    ∧ (2 ≤ argv.length →
      Step.usage_message ∉ (main argv env).steps
      ∧ (main argv env).steps.head?
          = some (Step.init_sound (init_sound env.snd_pcm_open env.snd_pcm_set_params))
      ∧ main argv env = main (argv.take 2) env) := by
  constructor
  · intro h
    refine ⟨?_, by decide⟩
    unfold main
    have h1 : ((argv.length : Int) < 2) := by omega
    simp only [h1, if_true]
  · intro h
    exact ⟨(usage_message_not_mem argv env h).1, (usage_message_not_mem argv env h).2,
      main_take_two argv env h⟩

/-- Witness of the amended C8 at `argc = 1` and `argc = 3`. -/
theorem main_argument_count_witness :
    (main ["fade_audio"] (env_of mixer_ok (playback_of_length 16384))
        = { code := some EXIT_FAILURE, steps := [Step.usage_message] }
      ∧ EXIT_FAILURE ≠ 0)
    ∧ (Step.usage_message
          ∉ (main ["fade_audio", "track.raw", "extra"]
              (env_of mixer_ok (playback_of_length 16384))).steps
      ∧ (main ["fade_audio", "track.raw", "extra"]
            (env_of mixer_ok (playback_of_length 16384))).steps.head?
          = some (Step.init_sound (init_sound 0 0))
      ∧ main ["fade_audio", "track.raw", "extra"] (env_of mixer_ok (playback_of_length 16384))
          = main ["fade_audio", "track.raw"] (env_of mixer_ok (playback_of_length 16384))) :=
  ⟨(main_argument_count ["fade_audio"] (env_of mixer_ok (playback_of_length 16384))).1
      (by decide),
   (main_argument_count ["fade_audio", "track.raw", "extra"]
      (env_of mixer_ok (playback_of_length 16384))).2 (by decide)⟩

/-- C9 at a mixer whose `snd_mixer_load` returns `-12`: `init_volume_mixer`
returns 0, and `main` goes on to `fork` and `parent_main` and exits with 0. -/
theorem init_volume_mixer_ignores_failure :
    mixer_load_fails.snd_mixer_load < 0
    ∧ (init_volume_mixer mixer_load_fails).1 = 0
    ∧ Step.fork 4242
        ∈ (main ["fade_audio", "track.raw"]
            (env_of mixer_load_fails (playback_of_length 16384))).steps
    ∧ Step.parent_main "track.raw" (parent_main (playback_of_length 16384))
        ∈ (main ["fade_audio", "track.raw"]
            (env_of mixer_load_fails (playback_of_length 16384))).steps
    ∧ (main ["fade_audio", "track.raw"]
        (env_of mixer_load_fails (playback_of_length 16384))).code = some 0 := by
  have hm := main_parent ["fade_audio", "track.raw"]
    (env_of mixer_load_fails (playback_of_length 16384)) _
    (by decide) (by decide) (by decide) (by decide) (parent_main_of_opens _ rfl)
  have hp : parent_main (playback_of_length 16384)
      = some (parent_loop (playback_of_length 16384) 0 (BLOCK_SAMPLING * BLOCK_SIZE) 0) :=
    parent_main_of_opens _ rfl
  refine ⟨by decide, rfl, ?_, ?_, ?_⟩
  · rw [hm]
    simp [env_of]
  · rw [hm, hp]
    simp [env_of]
  · rw [hm]
    rfl

end FadeAudio
